import Mathlib

/-! Observer failover in the proof and smart-contract-query processors of
elrond-proxy-go, the serialization of snapshot items, and the transaction
processor as the specification describes it.

A shallow embedding of `process/proofProcessor.go`,
`process/scQueryProcessor.go`, of `serializeSnapshotItems` in
`process/snapshotIndexer.go` and of `loadPrivKeysBytesFromPemFile` in
`faucet/privateKeysLoader.go`.  `process/transactionProcessor.go` is absent:
what the development needs of it is modelled from the specification, in
definitions whose comment says so.

* Go values of type `error` are values of `GoError`; `nil` is `none`.
* A Go `string` / `[]byte` is a sequence of bytes.  Bytes are natural numbers,
  a Go string is a Lean `String` carrying one character per byte.
* The collaborators (`core.PubkeyConverter`, the `Processor` interface) are
  effectful.  They are modelled by explicit state passing over an arbitrary
  world state `σ`, so that an observer may answer differently each time it is
  called.  Every call to a collaborator is recorded in a trace of `Event`s.
-/

namespace ElrondProxy

/-! ## Errors -/

/-- Values of the Go interface type `error` that occur in package `process`. -/
inductive GoError where
  /-- The package variable `ErrSendingRequest`. -/
  | ErrSendingRequest
  /-- The package variable `ErrNilCoreProcessor`. -/
  | ErrNilCoreProcessor
  /-- The package variable `ErrNilPubKeyConverter`. -/
  | ErrNilPubKeyConverter
  /-- An error value whose `Error()` message is `msg`
  (what `errors.New(msg)` builds, and what collaborators hand back). -/
  | text (msg : String)
  /-- The package variable `ErrCannotGetTransactionStatus`. -/
  | ErrCannotGetTransactionStatus
  /-- The error the specification calls `NoObserversAvailable`. -/
  | NoObserversAvailable
  /-- The error by which the dispatcher of the specification surfaces an
  answer with an unexpected status. -/
  | UnexpectedStatus (httpStatus : Int)
  deriving DecidableEq, Repr

/-! ## Data types of package `data` used by the two processors -/

/-- The type `data.NodeData`: one observer. -/
structure NodeData where
  Address : String
  ShardId : Nat
  deriving DecidableEq, Repr

/-- The type `data.GetProofResponse`; `Data` is a `[][]byte`, `none` is the nil slice. -/
structure GetProofResponse where
  Data : Option (List (List Nat))
  Error : String
  deriving DecidableEq, Repr

/-- The type `data.VerifyProofResponse`. -/
structure VerifyProofResponse where
  Data : Bool
  Error : String
  deriving DecidableEq, Repr

/-- The type `data.VerifyProofRequest`. -/
structure VerifyProofRequest where
  RootHash : List Nat
  Address : List Nat
  Proof : List (List Nat)
  deriving DecidableEq, Repr

/-- The type `data.SCQuery`. -/
structure SCQuery where
  ScAddress : String
  FuncName : String
  Arguments : List (List Nat)
  deriving DecidableEq, Repr

/-- The type `data.VmValueRequest`. -/
structure VmValueRequest where
  Address : String
  FuncName : String
  Args : List String
  deriving DecidableEq, Repr

/-- The inner `Data` struct of `data.ResponseVmValue`; `V` stands for
`vmcommon.VMOutput`, the field is a pointer and `none` is nil. -/
structure VmValuesResponseData (V : Type) where
  Data : Option V
  deriving DecidableEq, Repr

/-- The type `data.ResponseVmValue`. -/
structure ResponseVmValue (V : Type) where
  Data : VmValuesResponseData V
  Error : String
  deriving DecidableEq, Repr

/-! ## Collaborators -/

/-- What one REST call hands back: the returned status code, the returned
`error`, and the contents of the response struct after the call. -/
structure Answer (R : Type) where
  respCode : Int
  err : Option GoError
  response : R
  deriving DecidableEq, Repr

/-- One call made to a collaborator. -/
inductive Event where
  | Decode (address : String)
  | ComputeShardId (addressBytes : List Nat)
  | GetObservers (shardID : Nat)
  | CallGetRestEndPoint (address : String) (path : String)
  | CallPostRestEndPoint (address : String) (path : String)
  deriving DecidableEq, Repr

/-- The interface `core.PubkeyConverter`, as far as the processors use it. -/
structure PubkeyConverter (σ : Type) where
  Decode : String → σ → Except GoError (List Nat) × σ

/-- The interface `Processor`.  `CallPostRestEndPoint` takes `interface{}`
values; it has one field per pair of request and response types it is used
with. -/
structure Processor (σ V : Type) where
  ComputeShardId : List Nat → σ → Except GoError Nat × σ
  GetObservers : Nat → σ → Except GoError (List NodeData) × σ
  CallGetRestEndPoint : String → String → σ → Answer GetProofResponse × σ
  CallPostRestEndPointVerifyProof :
    String → String → VerifyProofRequest → σ → Answer VerifyProofResponse × σ
  CallPostRestEndPointVmValue :
    String → String → VmValueRequest → σ → Answer (ResponseVmValue V) × σ

/-- The type `ProofProcessor`. -/
structure ProofProcessor (σ V : Type) where
  proc : Processor σ V
  pubKeyConverter : PubkeyConverter σ

/-- The type `SCQueryProcessor`. -/
structure SCQueryProcessor (σ V : Type) where
  proc : Processor σ V
  pubKeyConverter : PubkeyConverter σ

/-- What a method returns: the Go result pair `(value, err)`, the calls made to
collaborators, in order, and the world state afterwards. -/
structure Ret (σ α : Type) where
  value : α
  err : Option GoError
  trace : List Event
  state : σ

/-- Put an event in front of the trace of a result. -/
def Ret.after {σ α : Type} (e : Event) (r : Ret σ α) : Ret σ α :=
  { r with trace := e :: r.trace }

/-- The Go conversion `string(b)` of a byte slice. -/
def bytesToString (b : List Nat) : String :=
  String.mk (b.map Char.ofNat)

/-- The constant `http.StatusOK`. -/
def StatusOK : Int := 200

/-- The constant `http.StatusNotFound`. -/
def StatusNotFound : Int := 404

/-- The constant `http.StatusRequestTimeout`. -/
def StatusRequestTimeout : Int := 408

/-! ## `proofProcessor.go` -/

/-- The method `ProofProcessor.getObserversForAddress`; the nil slice it
returns next to an error is the empty list. -/
def ProofProcessor.getObserversForAddress {σ V : Type} (pp : ProofProcessor σ V)
    (address : String) (s : σ) : Ret σ (List NodeData) :=
  match pp.pubKeyConverter.Decode address s with
  | (.error err, s1) => ⟨[], some err, [.Decode address], s1⟩
  | (.ok addressBytes, s1) =>
    match pp.proc.ComputeShardId addressBytes s1 with
    | (.error err, s2) =>
      ⟨[], some err, [.Decode address, .ComputeShardId addressBytes], s2⟩
    | (.ok shardID, s2) =>
      match pp.proc.GetObservers shardID s2 with
      | (.error err, s3) =>
        ⟨[], some err,
          [.Decode address, .ComputeShardId addressBytes, .GetObservers shardID], s3⟩
      | (.ok observers, s3) =>
        ⟨observers, none,
          [.Decode address, .ComputeShardId addressBytes, .GetObservers shardID], s3⟩

/-- The `for _, observer := range observers` loop of `GetProof`, with the
`return nil, ErrSendingRequest` that follows it. -/
def ProofProcessor.getProofLoop {σ V : Type} (pp : ProofProcessor σ V)
    (getProofEndpoint : String) :
    List NodeData → σ → Ret σ (Option (List (List Nat)))
  | [], s => ⟨none, some .ErrSendingRequest, [], s⟩
  | observer :: rest, s =>
    match pp.proc.CallGetRestEndPoint observer.Address getProofEndpoint s with
    | (⟨respCode, err, responseGetProof⟩, s1) =>
      Ret.after (.CallGetRestEndPoint observer.Address getProofEndpoint) <|
        match err with
        | some _ => pp.getProofLoop getProofEndpoint rest s1
        | none =>
          if responseGetProof.Error ≠ "" then
            ⟨none, some (.text responseGetProof.Error), [], s1⟩
          else if respCode = StatusOK then
            ⟨responseGetProof.Data, none, [], s1⟩
          else
            pp.getProofLoop getProofEndpoint rest s1

/-- The method `ProofProcessor.GetProof`. -/
def ProofProcessor.GetProof {σ V : Type} (pp : ProofProcessor σ V)
    (rootHash : List Nat) (address : List Nat) (s : σ) :
    Ret σ (Option (List (List Nat))) :=
  match pp.getObserversForAddress (bytesToString address) s with
  | ⟨_, some err, tr, s1⟩ => ⟨none, some err, tr, s1⟩
  | ⟨observers, none, tr, s1⟩ =>
    let getProofEndpoint :=
      "/proof/root-hash/" ++ bytesToString rootHash ++ "/address/" ++ bytesToString address
    let r := pp.getProofLoop getProofEndpoint observers s1
    { r with trace := tr ++ r.trace }

/-- The `for _, observer := range observers` loop of `VerifyProof`, with the
`return false, ErrSendingRequest` that follows it. -/
def ProofProcessor.verifyProofLoop {σ V : Type} (pp : ProofProcessor σ V)
    (verifyProofEndpoint : String) (requestParams : VerifyProofRequest) :
    List NodeData → σ → Ret σ Bool
  | [], s => ⟨false, some .ErrSendingRequest, [], s⟩
  | observer :: rest, s =>
    match pp.proc.CallPostRestEndPointVerifyProof observer.Address verifyProofEndpoint
        requestParams s with
    | (⟨respCode, err, responseVerifyProof⟩, s1) =>
      Ret.after (.CallPostRestEndPoint observer.Address verifyProofEndpoint) <|
        match err with
        | some _ => pp.verifyProofLoop verifyProofEndpoint requestParams rest s1
        | none =>
          if responseVerifyProof.Error ≠ "" then
            ⟨false, some (.text responseVerifyProof.Error), [], s1⟩
          else if respCode = StatusOK then
            ⟨responseVerifyProof.Data, none, [], s1⟩
          else
            pp.verifyProofLoop verifyProofEndpoint requestParams rest s1

/-- The method `ProofProcessor.VerifyProof`. -/
def ProofProcessor.VerifyProof {σ V : Type} (pp : ProofProcessor σ V)
    (rootHash : List Nat) (address : List Nat) (proof : List (List Nat)) (s : σ) :
    Ret σ Bool :=
  match pp.getObserversForAddress (bytesToString address) s with
  | ⟨_, some err, tr, s1⟩ => ⟨false, some err, tr, s1⟩
  | ⟨observers, none, tr, s1⟩ =>
    let verifyProofEndpoint := "/proof/verify"
    let requestParams : VerifyProofRequest :=
      { RootHash := rootHash, Address := address, Proof := proof }
    let r := pp.verifyProofLoop verifyProofEndpoint requestParams observers s1
    { r with trace := tr ++ r.trace }

/-! ## Go standard library: `encoding/hex` and `fmt` with no operands -/

/-- The constant `hextable` of `encoding/hex`. -/
def hextable : List Char := "0123456789abcdef".toList

/-- The function `hex.EncodeToString`: two characters of `hextable` per byte,
`hextable[v>>4]` and `hextable[v&0x0f]`. -/
def hexEncodeToString (src : List Nat) : String :=
  String.mk (src.flatMap fun v =>
    [hextable.getD ((v % 256) / 16) '0', hextable.getD (v % 16) '0'])

/-- The function `tooLarge` of package `fmt`, on a number that is never negative. -/
def fmtTooLarge (x : Nat) : Bool := decide (x > 1000000)

/-- The function `parsenum` of package `fmt`, run on the characters between
`start` and `end`: the number read, whether a digit was read, and the characters
left unread (none when the number is too large: `newi = end`). -/
def fmtParsenum : List Char → Nat → Bool → Nat × Bool × List Char
  | [], num, isnum => (num, isnum, [])
  | c :: cs, num, isnum =>
    if '0' ≤ c ∧ c ≤ '9' then
      if fmtTooLarge num then (0, false, [])
      else fmtParsenum cs (num * 10 + (c.toNat - '0'.toNat)) true
    else (num, isnum, c :: cs)

/-- The function `parseArgNumber` of package `fmt`, on a format that starts
with an opening bracket: the number of bytes to skip and whether an index was
read (the index itself is of no use when there are no operands). -/
def fmtParseArgNumber (format : List Char) : Nat × Bool :=
  if format.length < 3 then (1, false)
  else
    let tail := format.drop 1
    let idx := tail.indexOf ']'
    if idx < tail.length then
      match fmtParsenum (tail.take idx) 0 false with
      | (_, ok, unread) =>
        if !ok || !unread.isEmpty then (idx + 2, false) else (idx + 2, true)
    else (1, false)

/-- The method `argNumber` of package `fmt` when there are no operands: the
format left, whether an index was found, and the flag `goodArgNum`. -/
def fmtArgNumber (format : List Char) (goodArgNum : Bool) : List Char × Bool × Bool :=
  match format with
  | '[' :: _ =>
    match fmtParseArgNumber format with
    | (wid, ok) => (format.drop wid, ok, false)
  | _ => (format, false, goodArgNum)

/-- How many bytes `utf8.DecodeRuneInString` takes from a string that starts
with these bytes when they start a valid encoding, `none` when it answers
`(RuneError, 1)`. -/
def utf8EncodedLen (b : List Nat) : Option Nat :=
  let cont (x : Nat) : Bool := decide (0x80 ≤ x ∧ x ≤ 0xBF)
  match b with
  | [] => none
  | b0 :: r =>
    if b0 < 0x80 then some 1
    else if 0xC2 ≤ b0 ∧ b0 ≤ 0xDF then
      match r with
      | b1 :: _ => if cont b1 then some 2 else none
      | _ => none
    else if 0xE0 ≤ b0 ∧ b0 ≤ 0xEF then
      match r with
      | b1 :: b2 :: _ =>
        let lo := if b0 = 0xE0 then 0xA0 else 0x80
        let hi := if b0 = 0xED then 0x9F else 0xBF
        if lo ≤ b1 ∧ b1 ≤ hi ∧ cont b2 then some 3 else none
      | _ => none
    else if 0xF0 ≤ b0 ∧ b0 ≤ 0xF4 then
      match r with
      | b1 :: b2 :: b3 :: _ =>
        let lo := if b0 = 0xF0 then 0x90 else 0x80
        let hi := if b0 = 0xF4 then 0x8F else 0xBF
        if lo ≤ b1 ∧ b1 ≤ hi ∧ cont b2 ∧ cont b3 then some 4 else none
      | _ => none
    else none

/-- Reading the verb in `doPrintf`: the bytes `writeRune(verb)` puts out and the
format left.  An invalid encoding is one byte read as `utf8.RuneError`, whose
encoding is `EF BF BD`. -/
def fmtReadVerb (format : List Char) : List Char × List Char :=
  match utf8EncodedLen (format.map Char.toNat) with
  | some n => (format.take n, format.drop n)
  | none => ([Char.ofNat 0xEF, Char.ofNat 0xBF, Char.ofNat 0xBD], format.drop 1)

/-- What `doPrintf` of package `fmt` does with one verb when there are no
operands; `format` is what follows the percent sign.  Gives the text written,
the format left, and whether the loop stops (`break` after `%!(NOVERB)`). -/
def fmtVerb (format : List Char) : List Char × List Char × Bool :=
  -- flags
  let f1 := format.dropWhile fun c => c = '#' ∨ c = '0' ∨ c = '+' ∨ c = '-' ∨ c = ' '
  -- explicit argument index
  match fmtArgNumber f1 true with
  | (f2, afterIndex, good) =>
    -- width
    let w : List Char × List Char × Bool × Bool :=
      match f2 with
      | '*' :: f => ("%!(BADWIDTH)".toList, f, false, good)
      | _ =>
        match fmtParsenum f2 0 false with
        | (_, widPresent, f) => ([], f, afterIndex, if afterIndex && widPresent then false else good)
    match w with
    | (out1, f3, afterIndex, good) =>
      -- precision: a dot that is followed by at least one more byte
      let p : List Char × List Char × Bool × Bool :=
        match f3 with
        | '.' :: c :: f =>
          match fmtArgNumber (c :: f) (if afterIndex then false else good) with
          | (g, afterIndex, good) =>
            match g with
            | '*' :: g1 => ("%!(BADPREC)".toList, g1, false, good)
            | _ =>
              match fmtParsenum g 0 false with
              | (_, _, g1) => ([], g1, afterIndex, good)
        | _ => ([], f3, afterIndex, good)
      match p with
      | (out2, f4, afterIndex, good) =>
        let a : List Char × Bool × Bool :=
          if !afterIndex then fmtArgNumber f4 good else (f4, afterIndex, good)
        match a with
        | (f5, _, good) =>
          match f5 with
          | [] => (out1 ++ out2 ++ "%!(NOVERB)".toList, [], true)
          | '%' :: f6 => (out1 ++ out2 ++ ['%'], f6, false)
          | _ =>
            match fmtReadVerb f5 with
            | (verb, f6) =>
              if !good then
                (out1 ++ out2 ++ "%!".toList ++ verb ++ "(BADINDEX)".toList, f6, false)
              else
                (out1 ++ out2 ++ "%!".toList ++ verb ++ "(MISSING)".toList, f6, false)

/-- The method `doPrintf` of package `fmt` when there are no operands; every
turn of its loop takes at least the percent sign off the format, `fuel` bounds
the number of turns. -/
def fmtDoPrintf : Nat → List Char → List Char
  | 0, _ => []
  | fuel + 1, format =>
    let lit := format.takeWhile fun c => c ≠ '%'
    match format.dropWhile fun c => c ≠ '%' with
    | [] => lit
    | _ :: afterPercent =>
      match fmtVerb afterPercent with
      | (out, left, stop) =>
        if stop then lit ++ out else lit ++ out ++ fmtDoPrintf fuel left

/-- The call `fmt.Sprintf(format)`, with no operands. -/
def fmtSprintf (format : String) : String :=
  String.mk (fmtDoPrintf (format.length + 1) format.toList)

/-- The call `fmt.Errorf(format)`, with no operands: an error whose message is
`fmt.Sprintf(format)`. -/
def fmtErrorf (format : String) : GoError :=
  .text (fmtSprintf format)

/-! ## `scQueryProcessor.go` -/

/-- The constant `SCQueryServicePath`. -/
def SCQueryServicePath : String := "/vm-values/query"

/-- The method `SCQueryProcessor.createRequestFromQuery`. -/
def SCQueryProcessor.createRequestFromQuery {σ V : Type} (_scQueryProcessor : SCQueryProcessor σ V)
    (query : SCQuery) : VmValueRequest :=
  { Address := query.ScAddress
    FuncName := query.FuncName
    Args := query.Arguments.map fun argument => hexEncodeToString argument }

/-- The `for _, observer := range observers` loop of `ExecuteQuery`, with the
`return nil, ErrSendingRequest` that follows it. -/
def SCQueryProcessor.executeQueryLoop {σ V : Type} (scQueryProcessor : SCQueryProcessor σ V)
    (query : SCQuery) : List NodeData → σ → Ret σ (Option V)
  | [], s => ⟨none, some .ErrSendingRequest, [], s⟩
  | observer :: rest, s =>
    let request := scQueryProcessor.createRequestFromQuery query
    match scQueryProcessor.proc.CallPostRestEndPointVmValue observer.Address
        SCQueryServicePath request s with
    | (⟨httpStatus, err, response⟩, s1) =>
      let isObserverDown : Bool :=
        decide (httpStatus = StatusNotFound) || decide (httpStatus = StatusRequestTimeout)
      let isOk : Bool := decide (httpStatus = StatusOK)
      let responseHasExplicitError : Bool := decide (response.Error.length > 0)
      Ret.after (.CallPostRestEndPoint observer.Address SCQueryServicePath) <|
        if isObserverDown then
          scQueryProcessor.executeQueryLoop query rest s1
        else if isOk then
          ⟨response.Data.Data, none, [], s1⟩
        else if responseHasExplicitError then
          ⟨none, some (fmtErrorf response.Error), [], s1⟩
        else
          ⟨none, err, [], s1⟩

/-- The method `SCQueryProcessor.ExecuteQuery`. -/
def SCQueryProcessor.ExecuteQuery {σ V : Type} (scQueryProcessor : SCQueryProcessor σ V)
    (query : SCQuery) (s : σ) : Ret σ (Option V) :=
  match scQueryProcessor.pubKeyConverter.Decode query.ScAddress s with
  | (.error err, s1) => ⟨none, some err, [.Decode query.ScAddress], s1⟩
  | (.ok addressBytes, s1) =>
    match scQueryProcessor.proc.ComputeShardId addressBytes s1 with
    | (.error err, s2) =>
      ⟨none, some err, [.Decode query.ScAddress, .ComputeShardId addressBytes], s2⟩
    | (.ok shardID, s2) =>
      match scQueryProcessor.proc.GetObservers shardID s2 with
      | (.error err, s3) =>
        ⟨none, some err,
          [.Decode query.ScAddress, .ComputeShardId addressBytes, .GetObservers shardID], s3⟩
      | (.ok observers, s3) =>
        let r := scQueryProcessor.executeQueryLoop query observers s3
        { r with trace :=
            [.Decode query.ScAddress, .ComputeShardId addressBytes, .GetObservers shardID]
              ++ r.trace }

/-! ## The answers of the observers, and the decision taken on one answer -/

/-- The answers a REST call gives when the observers of a list are called one
after the other, starting in world state `s`. -/
def answersFrom {σ R : Type} (call : String → σ → Answer R × σ) :
    List NodeData → σ → List (Answer R)
  | [], _ => []
  | o :: os, s => (call o.Address s).1 :: answersFrom call os (call o.Address s).2

/-- What the body of a failover loop decides on one answer: go on to the next
observer, or return. -/
inductive Verdict (α : Type) where
  | next
  | stop (value : α) (err : Option GoError)

/-- A failover loop in general: call the observers in order and return at the
first answer on which `verdict` says so, or `(exhausted, ErrSendingRequest)`
after the last one. -/
def failover {σ R α : Type} (call : String → σ → Answer R × σ) (ev : String → Event)
    (verdict : Answer R → Verdict α) (exhausted : α) : List NodeData → σ → Ret σ α
  | [], s => ⟨exhausted, some .ErrSendingRequest, [], s⟩
  | o :: os, s =>
    Ret.after (ev o.Address) <|
      match verdict (call o.Address s).1 with
      | .next => failover call ev verdict exhausted os (call o.Address s).2
      | .stop v e => ⟨v, e, [], (call o.Address s).2⟩

/-- The decision the loop body of `GetProof` takes on one answer. -/
def getProofVerdict (a : Answer GetProofResponse) : Verdict (Option (List (List Nat))) :=
  match a.err with
  | some _ => .next
  | none =>
    if a.response.Error ≠ "" then .stop none (some (.text a.response.Error))
    else if a.respCode = StatusOK then .stop a.response.Data none
    else .next

/-- The decision the loop body of `VerifyProof` takes on one answer. -/
def verifyProofVerdict (a : Answer VerifyProofResponse) : Verdict Bool :=
  match a.err with
  | some _ => .next
  | none =>
    if a.response.Error ≠ "" then .stop false (some (.text a.response.Error))
    else if a.respCode = StatusOK then .stop a.response.Data none
    else .next

/-- The decision the loop body of `ExecuteQuery` takes on one answer. -/
def executeQueryVerdict {V : Type} (a : Answer (ResponseVmValue V)) : Verdict (Option V) :=
  if a.respCode = StatusNotFound ∨ a.respCode = StatusRequestTimeout then .next
  else if a.respCode = StatusOK then .stop a.response.Data.Data none
  else if a.response.Error.length > 0 then .stop none (some (fmtErrorf a.response.Error))
  else .stop none a.err

/-- The endpoint `GetProof` calls. -/
def getProofEndpoint (rootHash address : List Nat) : String :=
  "/proof/root-hash/" ++ bytesToString rootHash ++ "/address/" ++ bytesToString address

/-- The answers to `GetProof`: those of `CallGetRestEndPoint` on the observers
`obs`, called in order from world state `s`. -/
def ProofProcessor.getProofAnswers {σ V : Type} (pp : ProofProcessor σ V)
    (rootHash address : List Nat) (obs : List NodeData) (s : σ) :
    List (Answer GetProofResponse) :=
  answersFrom (fun a => pp.proc.CallGetRestEndPoint a (getProofEndpoint rootHash address)) obs s

/-- The answers to `VerifyProof`: those of `CallPostRestEndPoint` on the
observers `obs`, called in order from world state `s`. -/
def ProofProcessor.verifyProofAnswers {σ V : Type} (pp : ProofProcessor σ V)
    (rootHash address : List Nat) (proof : List (List Nat)) (obs : List NodeData) (s : σ) :
    List (Answer VerifyProofResponse) :=
  answersFrom (fun a => pp.proc.CallPostRestEndPointVerifyProof a "/proof/verify"
    ⟨rootHash, address, proof⟩) obs s

/-- The answers to `ExecuteQuery`: those of `CallPostRestEndPoint` on the
observers `obs`, called in order from world state `s`. -/
def SCQueryProcessor.executeQueryAnswers {σ V : Type} (scp : SCQueryProcessor σ V)
    (query : SCQuery) (obs : List NodeData) (s : σ) : List (Answer (ResponseVmValue V)) :=
  answersFrom (fun a => scp.proc.CallPostRestEndPointVmValue a SCQueryServicePath
    (scp.createRequestFromQuery query)) obs s

/-- The three directory calls of `ExecuteQuery` succeed from world state `s`:
the address decodes to `addressBytes`, these belong to shard `shardID`, whose
observers are `obs`, and the world state is then `s0`. -/
def SCQueryProcessor.Routes {σ V : Type} (scp : SCQueryProcessor σ V) (query : SCQuery) (s : σ)
    (addressBytes : List Nat) (shardID : Nat) (obs : List NodeData) (s0 : σ) : Prop :=
  ∃ s1 s2, scp.pubKeyConverter.Decode query.ScAddress s = (.ok addressBytes, s1) ∧
    scp.proc.ComputeShardId addressBytes s1 = (.ok shardID, s2) ∧
    scp.proc.GetObservers shardID s2 = (.ok obs, s0)

/-- The trace of GET calls on a list of observers. -/
def getCalls (path : String) (obs : List NodeData) : List Event :=
  obs.map fun o => Event.CallGetRestEndPoint o.Address path

/-- The trace of POST calls on a list of observers. -/
def postCalls (path : String) (obs : List NodeData) : List Event :=
  obs.map fun o => Event.CallPostRestEndPoint o.Address path

/-! ## Scripted test doubles -/

/-- A transport error, as a refused connection gives. -/
def connectionRefused : GoError := .text "connection refused"

/-- A scripted `Processor`: the world state counts the REST calls made so far,
the call number `n` is answered by entry `n` of the script of its kind (by a
transport error once the script is used up), every address is of shard 0 and
the observers of every shard are `observers`.  `vmcommon.VMOutput` is a
string here. -/
def scriptedProcessor (observers : List NodeData) (gets : List (Answer GetProofResponse))
    (verifies : List (Answer VerifyProofResponse))
    (queries : List (Answer (ResponseVmValue String))) : Processor Nat String where
  ComputeShardId := fun _ n => (.ok 0, n)
  GetObservers := fun _ n => (.ok observers, n)
  CallGetRestEndPoint := fun _ _ n =>
    (gets.getD n ⟨0, some connectionRefused, ⟨none, ""⟩⟩, n + 1)
  CallPostRestEndPointVerifyProof := fun _ _ _ n =>
    (verifies.getD n ⟨0, some connectionRefused, ⟨false, ""⟩⟩, n + 1)
  CallPostRestEndPointVmValue := fun _ _ _ n =>
    (queries.getD n ⟨0, some connectionRefused, ⟨⟨none⟩, ""⟩⟩, n + 1)

/-- A `PubkeyConverter` that decodes an address to its bytes. -/
def bytesConverter : PubkeyConverter Nat where
  Decode := fun address n => (.ok (address.toList.map Char.toNat), n)

/-- Two observers of shard 0. -/
def observersAB : List NodeData := [⟨"A", 0⟩, ⟨"B", 0⟩]

/-- A `ProofProcessor` over observers `A` and `B` with scripted answers. -/
def scriptedProofProcessor (gets : List (Answer GetProofResponse))
    (verifies : List (Answer VerifyProofResponse)) : ProofProcessor Nat String where
  proc := scriptedProcessor observersAB gets verifies []
  pubKeyConverter := bytesConverter

/-- An `SCQueryProcessor` over observers `A` and `B` with scripted answers. -/
def scriptedSCQueryProcessor (queries : List (Answer (ResponseVmValue String))) :
    SCQueryProcessor Nat String where
  proc := scriptedProcessor observersAB [] [] queries
  pubKeyConverter := bytesConverter

/-- The routing trace of the scripted processors for the empty address. -/
def routingTrace : List Event :=
  [.Decode "", .ComputeShardId [], .GetObservers 0]

/-- Proof processor whose observer `A` answers status 500 with the error field
`"boom"` and no transport error, and whose observer `B` answers status 200
with an empty error field and a payload. -/
def explicitErrorThenOk : ProofProcessor Nat String :=
  scriptedProofProcessor
    [⟨500, none, ⟨none, "boom"⟩⟩, ⟨200, none, ⟨some [[1, 2]], ""⟩⟩]
    [⟨500, none, ⟨false, "boom"⟩⟩, ⟨200, none, ⟨true, ""⟩⟩]

/-- Proof processor whose observer `A` fails at transport level and whose
observer `B` answers status 200 with an empty error field and a payload. -/
def refusedThenOk : ProofProcessor Nat String :=
  scriptedProofProcessor
    [⟨0, some connectionRefused, ⟨none, ""⟩⟩, ⟨200, none, ⟨some [[1, 2]], ""⟩⟩]
    [⟨0, some connectionRefused, ⟨false, ""⟩⟩, ⟨200, none, ⟨true, ""⟩⟩]

/-- A query to the contract at the empty address. -/
def sampleQuery : SCQuery := ⟨"", "get", [[1, 2]]⟩

/-- Query processor whose observer `A` fails at transport level, the call
reporting status 500, and whose observer `B` answers status 200 with a VM
output. -/
def refused500ThenOk : SCQueryProcessor Nat String :=
  scriptedSCQueryProcessor
    [⟨500, some connectionRefused, ⟨⟨none⟩, ""⟩⟩, ⟨200, none, ⟨⟨some "out"⟩, ""⟩⟩]

/-- Query processor whose observer `A` fails at transport level, the call
reporting status 0, and whose observer `B` answers status 200 with a VM
output. -/
def refused0ThenOk : SCQueryProcessor Nat String :=
  scriptedSCQueryProcessor
    [⟨0, some connectionRefused, ⟨⟨none⟩, ""⟩⟩, ⟨200, none, ⟨⟨some "out"⟩, ""⟩⟩]

/-- Query processor whose observer `A` fails at transport level, the call
reporting status 404, and whose observer `B` answers status 200 with a VM
output. -/
def refused404ThenOk : SCQueryProcessor Nat String :=
  scriptedSCQueryProcessor
    [⟨404, some connectionRefused, ⟨⟨none⟩, ""⟩⟩, ⟨200, none, ⟨⟨some "out"⟩, ""⟩⟩]

/-- Query processor whose observer `A` answers status 200 with a VM output and
a populated error field. -/
def okWithErrorField : SCQueryProcessor Nat String :=
  scriptedSCQueryProcessor [⟨200, none, ⟨⟨some "out"⟩, "execution failed"⟩⟩]

/-- Query processor whose observer `A` answers status 500 with an empty error
field and no transport error, and whose observer `B` answers status 200 with a
VM output. -/
def bare500ThenOk : SCQueryProcessor Nat String :=
  scriptedSCQueryProcessor
    [⟨500, none, ⟨⟨none⟩, ""⟩⟩, ⟨200, none, ⟨⟨some "out"⟩, ""⟩⟩]

/-- Query processor whose observer `A` answers status 500 with the error field
`"gas 100%"`, and whose observer `B` answers status 200 with a VM output. -/
def percentInErrorField : SCQueryProcessor Nat String :=
  scriptedSCQueryProcessor
    [⟨500, none, ⟨⟨none⟩, "gas 100%"⟩⟩, ⟨200, none, ⟨⟨some "out"⟩, ""⟩⟩]

/-- Query processor whose observers `A` and `B` both answer status 404. -/
def bothDown : SCQueryProcessor Nat String :=
  scriptedSCQueryProcessor
    [⟨404, some connectionRefused, ⟨⟨none⟩, ""⟩⟩, ⟨404, none, ⟨⟨none⟩, "not found"⟩⟩]

/-- Proof processor whose observers `A` and `B` both fail at transport level. -/
def bothRefused : ProofProcessor Nat String :=
  scriptedProofProcessor [] []

/-- Proof processor whose observers `A` and `B` both answer status 500 with an
empty error field and no transport error. -/
def bothBare500 : ProofProcessor Nat String :=
  scriptedProofProcessor
    [⟨500, none, ⟨none, ""⟩⟩, ⟨500, none, ⟨none, ""⟩⟩]
    [⟨500, none, ⟨false, ""⟩⟩, ⟨500, none, ⟨false, ""⟩⟩]

/-- Whether a call recorded in a trace is a REST call to an observer. -/
def Event.isRestCall : Event → Bool
  | .CallGetRestEndPoint _ _ => true
  | .CallPostRestEndPoint _ _ => true
  | _ => false

/-- The REST calls of a trace. -/
def restCalls (trace : List Event) : List Event :=
  trace.filter Event.isRestCall

/-- Proof processor whose directory has no observer for any shard; an observer
would answer status 200. -/
def noObserversProofProcessor : ProofProcessor Nat String where
  proc := scriptedProcessor [] [⟨200, none, ⟨some [[1, 2]], ""⟩⟩] [⟨200, none, ⟨true, ""⟩⟩] []
  pubKeyConverter := bytesConverter

/-- Query processor whose directory has no observer for any shard; an
observer would answer status 200. -/
def noObserversSCQueryProcessor : SCQueryProcessor Nat String where
  proc := scriptedProcessor [] [] [] [⟨200, none, ⟨⟨some "out"⟩, ""⟩⟩]
  pubKeyConverter := bytesConverter

/-- A `PubkeyConverter` that rejects every address. -/
def rejectingConverter : PubkeyConverter Nat where
  Decode := fun _ n => (.error (.text "invalid byte"), n)

/-- A scripted `Processor` whose `ComputeShardId` fails. -/
def noShardProcessor : Processor Nat String :=
  { scriptedProcessor observersAB [] [] [] with
    ComputeShardId := fun _ n => (.error (.text "shard lookup failed"), n) }

/-- A scripted `Processor` whose `GetObservers` fails. -/
def noDirectoryProcessor : Processor Nat String :=
  { scriptedProcessor observersAB [] [] [] with
    GetObservers := fun _ n => (.error (.text "expected error"), n) }

/-! ## `encoding/hex`: decoding -/

/-- The function `fromHexChar` of `encoding/hex`: the value of a hexadecimal
digit, of either case. -/
def fromHexChar (c : Char) : Option Nat :=
  if '0' ≤ c ∧ c ≤ '9' then some (c.toNat - '0'.toNat)
  else if 'a' ≤ c ∧ c ≤ 'f' then some (c.toNat - 'a'.toNat + 10)
  else if 'A' ≤ c ∧ c ≤ 'F' then some (c.toNat - 'A'.toNat + 10)
  else none

/-- The function `hex.Decode` on the characters of its source: two digits give
one byte; an odd length or a character that is no digit is an error. -/
def hexDecode : List Char → Option (List Nat)
  | [] => some []
  | [_] => none
  | p :: q :: rest =>
    match fromHexChar p, fromHexChar q, hexDecode rest with
    | some a, some b, some r => some ((a * 16 + b) :: r)
    | _, _, _ => none

/-- The function `hex.DecodeString`. -/
def hexDecodeString (s : String) : Option (List Nat) :=
  hexDecode s.toList

/-! ## The constructors -/

/-- The function `NewProofProcessor`; a nil interface value is `none`, and so
is the nil pointer returned next to an error. -/
def NewProofProcessor {σ V : Type} (proc : Option (Processor σ V))
    (pubKeyConverter : Option (PubkeyConverter σ)) :
    Option (ProofProcessor σ V) × Option GoError :=
  match proc with
  | none => (none, some .ErrNilCoreProcessor)
  | some proc =>
    match pubKeyConverter with
    | none => (none, some .ErrNilPubKeyConverter)
    | some pubKeyConverter => (some { proc := proc, pubKeyConverter := pubKeyConverter }, none)

/-- The function `NewSCQueryProcessor`. -/
def NewSCQueryProcessor {σ V : Type} (proc : Option (Processor σ V))
    (pubKeyConverter : Option (PubkeyConverter σ)) :
    Option (SCQueryProcessor σ V) × Option GoError :=
  match proc with
  | none => (none, some .ErrNilCoreProcessor)
  | some proc =>
    match pubKeyConverter with
    | none => (none, some .ErrNilPubKeyConverter)
    | some pubKeyConverter => (some { proc := proc, pubKeyConverter := pubKeyConverter }, none)

/-! ## The transaction processor -/

/-- The type `data.Transaction`, with the fields the tests use. -/
structure Transaction where
  Sender : String
  Receiver : String
  deriving DecidableEq, Repr

/-- The type `data.ResponseTransaction`: the hash of the transaction and the
optional error of the response envelope. -/
structure ResponseTransaction where
  TxHash : String
  Error : String
  deriving DecidableEq, Repr

/-- The type `data.ResponseMultiTransactions`: the number of transactions the
observer took, the map from the position in the batch sent to the hash (a
`map[int]string`, as a function that is `none` off the keys), and the optional
error of the response envelope. -/
structure ResponseMultiTransactions where
  NumOfTxs : Nat
  TxsHashes : Nat → Option String
  Error : String

/-- The interface `Processor` as the transaction processor uses it: with
`CallPostRestEndPoint` at the request and response types of the two
transaction endpoints. -/
structure TxCoreProcessor (σ V : Type) extends Processor σ V where
  CallPostRestEndPointTransaction :
    String → String → Transaction → σ → Answer ResponseTransaction × σ
  CallPostRestEndPointMultiTransactions :
    String → String → List Transaction → σ → Answer ResponseMultiTransactions × σ

/-- The type `TransactionProcessor`. -/
structure TransactionProcessor (σ V : Type) where
  proc : TxCoreProcessor σ V
  pubKeyConverter : PubkeyConverter σ

/-- Modelled from the spec: the function `NewTransactionProcessor` of
`transactionProcessor.go`, which is absent.  The specification does not
describe the constructors; the model has the shape of `NewProofProcessor` and
`NewSCQueryProcessor`, which is what the tests
`TestNewTransactionProcessor_NilCoreProcessorShouldErr`,
`TestNewTransactionProcessor_NilPubKeyConverterShouldErr` and
`TestNewTransactionProcessor_OkValuesShouldWork` assert. -/
def NewTransactionProcessor {σ V : Type} (proc : Option (TxCoreProcessor σ V))
    (pubKeyConverter : Option (PubkeyConverter σ)) :
    Option (TransactionProcessor σ V) × Option GoError :=
  match proc with
  | none => (none, some .ErrNilCoreProcessor)
  | some proc =>
    match pubKeyConverter with
    | none => (none, some .ErrNilPubKeyConverter)
    | some pubKeyConverter => (some { proc := proc, pubKeyConverter := pubKeyConverter }, none)

/-! ## `snapshotIndexer.go`: serialization of snapshot items -/

/-- The constant `bulkSizeThreshold`. -/
def bulkSizeThreshold : Nat := 800000

/-- The bulk meta line `prepareSerializedSnapshots` builds with `fmt.Sprintf`:
the text of the format before its verb, then the newline given as operand. -/
def bulkMeta : List Nat :=
  "\x7b \"index\" : \x7b  \x7d \x7d\n".toList.map Char.toNat

/-- The function `prepareSerializedSnapshots`; `marshal` stands for
`json.Marshal` on a snapshot item. -/
def prepareSerializedSnapshots {Item : Type} (marshal : Item → Except GoError (List Nat))
    (item : Item) : Except GoError (List Nat × List Nat) :=
  match marshal item with
  | .error err => .error err
  | .ok serializedData => .ok (bulkMeta, serializedData)

/-- The loop of `serializeSnapshotItems` and what follows it; `buff` is the
contents of the buffer being filled, `buffSlice` the buffers put aside.
`bytes.Buffer.Write` returns no error. -/
def serializeSnapshotItemsLoop {Item : Type} (marshal : Item → Except GoError (List Nat)) :
    List Item → List Nat → List (List Nat) → Except GoError (List (List Nat))
  | [], buff, buffSlice =>
    -- check if the last buffer contains data
    .ok (if buff.length ≠ 0 then buffSlice ++ [buff] else buffSlice)
  | snapshotItem :: rest, buff, buffSlice =>
    match prepareSerializedSnapshots marshal snapshotItem with
    | .error errPrepareAcc => .error errPrepareAcc
    | .ok (metaLine, serializedData) =>
      -- append a newline for each element
      let serializedData := serializedData ++ [10]
      let buffLenWithCurrentItem := buff.length + metaLine.length + serializedData.length
      if buffLenWithCurrentItem > bulkSizeThreshold ∧ buff.length ≠ 0 then
        serializeSnapshotItemsLoop marshal rest (([] ++ metaLine) ++ serializedData)
          (buffSlice ++ [buff])
      else
        serializeSnapshotItemsLoop marshal rest ((buff ++ metaLine) ++ serializedData) buffSlice

/-- The function `serializeSnapshotItems`. -/
def serializeSnapshotItems {Item : Type} (marshal : Item → Except GoError (List Nat))
    (snapshotItems : List Item) : Except GoError (List (List Nat)) :=
  serializeSnapshotItemsLoop marshal snapshotItems [] []

/-- What one item adds to a buffer: the bulk meta line, the JSON of the item
and a newline. -/
def bulkRecord {Item : Type} (json : Item → List Nat) (item : Item) : List Nat :=
  (bulkMeta ++ json item) ++ [10]

/-- The contents of a buffer that holds the items of `group`. -/
def bulkBuffer {Item : Type} (json : Item → List Nat) (group : List Item) : List Nat :=
  group.flatMap (bulkRecord json)

/-- A marshaller for items that are numbers: the JSON of `n` is `n` bytes `7`. -/
def sevens (n : Nat) : Except GoError (List Nat) :=
  .ok (List.replicate n 7)

/-! ## The status of a transaction: `ParseTxStatusResponses` -/

/-- Modelled from the spec: the constant `UnknownStatusTx` of
`transactionProcessor.go`, which is absent; the specification writes the
status `"unknown"`. -/
def UnknownStatusTx : String := "unknown"

/-- Modelled from the spec: the first step of the status quorum resolver
(§4.5), missing with `transactionProcessor.go`: "flatten to the set of
distinct non-unknown status values across all shards".  The map from shard to
statuses is a list of pairs. -/
def definiteStatuses (responses : List (Nat × List String)) : List String :=
  ((responses.flatMap fun r => r.2).filter fun status => status ≠ UnknownStatusTx).dedup

/-- Modelled from the spec: the function `ParseTxStatusResponses` (the status
quorum resolver of §4.5), missing with `transactionProcessor.go`.  More than
one distinct value that is not `"unknown"`: `ErrCannotGetTransactionStatus`
and no status; exactly one: that value; none (all reported values are
`"unknown"`): `"unknown"` and no error. -/
def ParseTxStatusResponses (responses : List (Nat × List String)) : String × Option GoError :=
  match definiteStatuses responses with
  | [] => (UnknownStatusTx, none)
  | [status] => (status, none)
  | _ :: _ :: _ => ("", some .ErrCannotGetTransactionStatus)

/-- The map `responses1` of the test `TestParseTxStatusResponses`. -/
def testResponses1 : List (Nat × List String) :=
  [(0, ["Ok", "Ok", "Ok"]), (1, [UnknownStatusTx, UnknownStatusTx]), (2, ["Ok"])]

/-- The map `responses2` of the test `TestParseTxStatusResponses`. -/
def testResponses2 : List (Nat × List String) :=
  [(0, [UnknownStatusTx, UnknownStatusTx, UnknownStatusTx]),
    (1, [UnknownStatusTx, UnknownStatusTx]), (2, [UnknownStatusTx])]

/-- The map `responses3` of the test `TestParseTxStatusResponses`. -/
def testResponses3 : List (Nat × List String) :=
  [(0, ["Ok"]), (1, [UnknownStatusTx, UnknownStatusTx]), (2, [UnknownStatusTx])]

/-- The map `responses4` of the test `TestParseTxStatusResponses`. -/
def testResponses4 : List (Nat × List String) :=
  [(0, ["Ok", "NotOk"]), (1, [UnknownStatusTx, UnknownStatusTx]), (2, [UnknownStatusTx])]

/-- The test `TestParseTxStatusResponses` of `transactionProcessor_test.go`, as
a property of the function it is run on: on `responses1` the error is
`ErrCannotGetTransactionStatus`; on `responses2` there is no error and the
status is `UnknownStatusTx`; on `responses3` there is no error and the status
is `"Ok"`; on `responses4` the error is `ErrCannotGetTransactionStatus`. -/
def TestParseTxStatusResponses
    (parse : List (Nat × List String) → String × Option GoError) : Prop :=
  (parse testResponses1).2 = some .ErrCannotGetTransactionStatus ∧
  ((parse testResponses2).2 = none ∧ (parse testResponses2).1 = UnknownStatusTx) ∧
  ((parse testResponses3).2 = none ∧ (parse testResponses3).1 = "Ok") ∧
  (parse testResponses4).2 = some .ErrCannotGetTransactionStatus

/-! ## The request dispatcher of the specification and `SendTransaction` -/

/-- The constant `http.StatusBadRequest`. -/
def StatusBadRequest : Int := 400

/-- The constant `http.StatusInternalServerError`. -/
def StatusInternalServerError : Int := 500

/-- Modelled from the spec: what the request dispatcher (§4.2, steps 3 and 4),
missing with the base processor, decides on one answer.  A transport error:
go on to the next observer.  A successful transport call: an explicit error
field stops the loop with that error; status 200 and no error field is the
success, with the decoded payload; any other status stops the loop and
surfaces the unexpected condition. -/
def dispatchVerdict {R : Type} (errorField : R → String) (a : Answer R) : Verdict (Option R) :=
  match a.err with
  | some _ => .next
  | none =>
    if errorField a.response ≠ "" then .stop none (some (.text (errorField a.response)))
    else if a.respCode = StatusOK then .stop (some a.response) none
    else .stop none (some (.UnexpectedStatus a.respCode))

/-- Modelled from the spec: the request dispatcher `dispatch` (§4.2), missing
with the base processor.  Step 1: fetch the observers of the shard, fail with
`NoObserversAvailable` if the list is empty or the lookup fails.  Steps 2 to
5: the failover loop over the observers in the order given, failing with
`ErrSendingRequest` (`SendingRequestFailed`) when the list is exhausted. -/
def dispatch {σ V R : Type} (proc : Processor σ V) (call : String → σ → Answer R × σ)
    (ev : String → Event) (errorField : R → String) (shardID : Nat) (s : σ) :
    Ret σ (Option R) :=
  match proc.GetObservers shardID s with
  | (.error _, s1) => ⟨none, some .NoObserversAvailable, [.GetObservers shardID], s1⟩
  | (.ok [], s1) => ⟨none, some .NoObserversAvailable, [.GetObservers shardID], s1⟩
  | (.ok (o :: os), s1) =>
    Ret.after (.GetObservers shardID)
      (failover call ev (dispatchVerdict errorField) none (o :: os) s1)

/-- Modelled from the spec: the path of the endpoint `SendTransaction` posts
to; the specification leaves it open. -/
def TransactionSendPath : String := "/transaction/send"

/-- Modelled from the spec: the path of the endpoint `SendMultipleTransactions`
posts to; the specification leaves it open. -/
def MultipleTransactionsPath : String := "/transaction/send-multiple"

/-- Modelled from the spec: the method `SendTransaction` (§4.4), missing with
`transactionProcessor.go`: decode the sender address (400 on failure), route
to the shard (500 on directory failure), dispatch the POST per §4.2 (500 on
dispatch failure, 200 and the hash on success).  The value returned is the
pair of the status and the hash. -/
def TransactionProcessor.SendTransaction {σ V : Type} (tp : TransactionProcessor σ V)
    (tx : Transaction) (s : σ) : Ret σ (Int × String) :=
  match tp.pubKeyConverter.Decode tx.Sender s with
  | (.error err, s1) => ⟨(StatusBadRequest, ""), some err, [.Decode tx.Sender], s1⟩
  | (.ok senderBytes, s1) =>
    match tp.proc.ComputeShardId senderBytes s1 with
    | (.error err, s2) =>
      ⟨(StatusInternalServerError, ""), some err,
        [.Decode tx.Sender, .ComputeShardId senderBytes], s2⟩
    | (.ok shardID, s2) =>
      match dispatch tp.proc.toProcessor
        (fun a => tp.proc.CallPostRestEndPointTransaction a TransactionSendPath tx)
        (fun a => Event.CallPostRestEndPoint a TransactionSendPath)
        ResponseTransaction.Error shardID s2 with
      | ⟨some response, none, tr, s3⟩ =>
        ⟨(StatusOK, response.TxHash), none,
          [.Decode tx.Sender, .ComputeShardId senderBytes] ++ tr, s3⟩
      | ⟨_, err, tr, s3⟩ =>
        ⟨(StatusInternalServerError, ""), err,
          [.Decode tx.Sender, .ComputeShardId senderBytes] ++ tr, s3⟩

/-- The answers to `SendTransaction`: those of `CallPostRestEndPoint` on the
observers `obs`, called in order from world state `s`. -/
def TransactionProcessor.sendTransactionAnswers {σ V : Type} (tp : TransactionProcessor σ V)
    (tx : Transaction) (obs : List NodeData) (s : σ) : List (Answer ResponseTransaction) :=
  answersFrom (fun a => tp.proc.CallPostRestEndPointTransaction a TransactionSendPath tx) obs s

/-- The directory calls of `SendTransaction` succeed from world state `s`: the
sender decodes to `senderBytes`, these belong to shard `shardID`, whose
observers are `obs`, and the world state is then `s0`. -/
def TransactionProcessor.Routes {σ V : Type} (tp : TransactionProcessor σ V) (tx : Transaction)
    (s : σ) (senderBytes : List Nat) (shardID : Nat) (obs : List NodeData) (s0 : σ) : Prop :=
  ∃ s1 s2, tp.pubKeyConverter.Decode tx.Sender s = (.ok senderBytes, s1) ∧
    tp.proc.ComputeShardId senderBytes s1 = (.ok shardID, s2) ∧
    tp.proc.GetObservers shardID s2 = (.ok obs, s0)

/-- A transaction processor in the manner of the test
`TestTransactionProcessor_SendTransactionSendingFailsOnFirstObserverShouldStillSend`:
observers `address1` and `address2`; `address1` fails at transport level,
`address2` answers status 200 with the hash `DEADBEEF01234567890`. -/
def firstObserverFails : TransactionProcessor Nat String where
  proc :=
    { scriptedProcessor [⟨"address1", 0⟩, ⟨"address2", 0⟩] [] [] [] with
      CallPostRestEndPointTransaction := fun address _ _ n =>
        if address = "address1" then
          (⟨500, some (.text "expected error"), ⟨"", ""⟩⟩, n + 1)
        else (⟨200, none, ⟨"DEADBEEF01234567890", ""⟩⟩, n + 1)
      CallPostRestEndPointMultiTransactions := fun _ _ _ n =>
        (⟨0, some connectionRefused, ⟨0, fun _ => none, ""⟩⟩, n + 1) }
  pubKeyConverter := bytesConverter

/-! ## `SendMultipleTransactions` -/

/-- The result of `SendMultipleTransactions`: the number of transactions taken
and the map from the index in the batch submitted to the hash. -/
structure MultipleTransactionsResult where
  NumOfTxs : Nat
  TxsHashes : Nat → Option String

/-- Modelled from the spec: the first half of the transaction batch splitter
(§4.4), missing with `transactionProcessor.go`: the shard of every transaction
of the batch, in the order of the batch, found from its sender address alone
(decode, then `ComputeShardId`).  A sender that cannot be routed fails the
call with the error of the collaborator. -/
def TransactionProcessor.routeTransactions {σ V : Type} (tp : TransactionProcessor σ V) :
    List Transaction → σ → Ret σ (List Nat)
  | [], s => ⟨[], none, [], s⟩
  | tx :: rest, s =>
    match tp.pubKeyConverter.Decode tx.Sender s with
    | (.error err, s1) => ⟨[], some err, [.Decode tx.Sender], s1⟩
    | (.ok senderBytes, s1) =>
      match tp.proc.ComputeShardId senderBytes s1 with
      | (.error err, s2) =>
        ⟨[], some err, [.Decode tx.Sender, .ComputeShardId senderBytes], s2⟩
      | (.ok shardID, s2) =>
        match tp.routeTransactions rest s2 with
        | ⟨_, some err, tr, s3⟩ =>
          ⟨[], some err, [.Decode tx.Sender, .ComputeShardId senderBytes] ++ tr, s3⟩
        | ⟨shards, none, tr, s3⟩ =>
          ⟨shardID :: shards, none, [.Decode tx.Sender, .ComputeShardId senderBytes] ++ tr, s3⟩

/-- The original indices of the transactions of shard `k`, in order, among the
transactions whose shards are listed and whose indices start at `i`. -/
def membersFrom (k : Nat) : Nat → List Nat → List Nat
  | _, [] => []
  | i, shard :: rest =>
    if shard = k then i :: membersFrom k (i + 1) rest else membersFrom k (i + 1) rest

/-- Modelled from the spec: the shard group of shard `k` (§3,
`TransactionGroup`): the original indices of its transactions, in the order of
the batch.  The position of a transaction inside its group is the position of
its index in this list. -/
def membersOf (shards : List Nat) (k : Nat) : List Nat :=
  membersFrom k 0 shards

/-- Modelled from the spec: the sub-batch of a shard group, the transactions
at the indices of the group. -/
def subBatch (txs : List Transaction) (members : List Nat) : List Transaction :=
  members.filterMap fun i => txs[i]?

/-- Modelled from the spec: "dispatch one POST per shard group carrying its
sub-batch" (§4.4), through the dispatcher of §4.2. -/
def TransactionProcessor.sendGroup {σ V : Type} (tp : TransactionProcessor σ V)
    (txs : List Transaction) (shards : List Nat) (shardID : Nat) (s : σ) :
    Ret σ (Option ResponseMultiTransactions) :=
  dispatch tp.proc.toProcessor
    (fun a => tp.proc.CallPostRestEndPointMultiTransactions a MultipleTransactionsPath
      (subBatch txs (membersOf shards shardID)))
    (fun a => Event.CallPostRestEndPoint a MultipleTransactionsPath)
    ResponseMultiTransactions.Error shardID s

/-- Modelled from the spec: "merge per-group local-index→hash maps back into
global indices using the recorded partition mapping" (§4.4): the hash the
response gives for position `p` goes to the original index at position `p` of
the group. -/
def mergeGroup (members : List Nat) (response : ResponseMultiTransactions)
    (hashes : Nat → Option String) : Nat → Option String :=
  fun i =>
    if i ∈ members then
      match response.TxsHashes (members.indexOf i) with
      | some hash => some hash
      | none => hashes i
    else hashes i

/-- What `SendMultipleTransactions` has gathered so far: the sum of the
`NumOfTxs` of the groups accepted, the merged hashes, the number of groups
accepted, the calls made and the world state. -/
structure BatchProgress (σ : Type) where
  NumOfTxs : Nat
  TxsHashes : Nat → Option String
  accepted : Nat
  trace : List Event
  state : σ

/-- Modelled from the spec: the shard groups processed one after the other in
the order of the list of shard ids (§4.4): the response of a group that is
accepted is added to the result, "a failing group does not abort other
groups". -/
def TransactionProcessor.sendGroups {σ V : Type} (tp : TransactionProcessor σ V)
    (txs : List Transaction) (shards : List Nat) :
    List Nat → BatchProgress σ → BatchProgress σ
  | [], acc => acc
  | shardID :: rest, acc =>
    match tp.sendGroup txs shards shardID acc.state with
    | ⟨some response, none, tr, s1⟩ =>
      tp.sendGroups txs shards rest
        { NumOfTxs := acc.NumOfTxs + response.NumOfTxs
          TxsHashes := mergeGroup (membersOf shards shardID) response acc.TxsHashes
          accepted := acc.accepted + 1
          trace := acc.trace ++ tr
          state := s1 }
    | ⟨_, _, tr, s1⟩ =>
      tp.sendGroups txs shards rest { acc with trace := acc.trace ++ tr, state := s1 }

/-- Modelled from the spec: the method `SendMultipleTransactions` (§4.4),
missing with `transactionProcessor.go`: partition the batch by sender shard,
dispatch one POST per shard group, merge the responses.  `schedule` is the
order in which the shard groups are processed, a list of their shard ids (the
specification fixes no order).  Partial success is reported; the call fails
when there are groups and every group fails (the specification does not name
the error, `ErrSendingRequest` here).  Counts are natural numbers. -/
def TransactionProcessor.SendMultipleTransactions {σ V : Type} (tp : TransactionProcessor σ V)
    (txs : List Transaction) (schedule : List Nat) (s : σ) :
    Ret σ MultipleTransactionsResult :=
  match tp.routeTransactions txs s with
  | ⟨_, some err, tr, s1⟩ => ⟨⟨0, fun _ => none⟩, some err, tr, s1⟩
  | ⟨shards, none, tr, s1⟩ =>
    match tp.sendGroups txs shards schedule ⟨0, fun _ => none, 0, tr, s1⟩ with
    | ⟨numOfTxs, txsHashes, accepted, tr2, s2⟩ =>
      if schedule ≠ [] ∧ accepted = 0 then
        ⟨⟨0, fun _ => none⟩, some .ErrSendingRequest, tr2, s2⟩
      else
        ⟨⟨numOfTxs, txsHashes⟩, none, tr2, s2⟩

/-- The shard group of shard `k` is accepted in full, with the hash `H k p` for
the transaction at position `p` of the group: whatever the world state is when
the group is dispatched, the dispatch succeeds with a response whose
`NumOfTxs` is the size of the group and whose hash map has the hash `H k p` at
every position `p` of the group. -/
def TransactionProcessor.AcceptedInFull {σ V : Type} (tp : TransactionProcessor σ V)
    (txs : List Transaction) (shards : List Nat) (H : Nat → Nat → String) (k : Nat) : Prop :=
  ∀ s, ∃ response tr s1, tp.sendGroup txs shards k s = ⟨some response, none, tr, s1⟩ ∧
    response.NumOfTxs = (membersOf shards k).length ∧
    ∀ p, p < (membersOf shards k).length → response.TxsHashes p = some (H k p)

/-- A transaction processor in the manner of the test
`TestTransactionProcessor_SendMultipleTransactionsShouldWorkAndSendTxsByShard`:
senders whose address starts with `c` are of shard 1, the others of shard 0;
`observer0` serves shard 0 and answers with `hash0`, `hash1`; `observer1`
serves the other shards and answers with `hash2`, `hash3`. -/
def byShardProcessor : TransactionProcessor Nat String where
  proc :=
    { ComputeShardId := fun senderBytes n =>
        (.ok (if senderBytes.head? = some 99 then 1 else 0), n)
      GetObservers := fun shardID n =>
        (.ok (if shardID = 0 then [⟨"observer0", 0⟩] else [⟨"observer1", 0⟩]), n)
      CallGetRestEndPoint := fun _ _ n => (⟨0, some connectionRefused, ⟨none, ""⟩⟩, n + 1)
      CallPostRestEndPointVerifyProof := fun _ _ _ n =>
        (⟨0, some connectionRefused, ⟨false, ""⟩⟩, n + 1)
      CallPostRestEndPointVmValue := fun _ _ _ n =>
        (⟨0, some connectionRefused, ⟨⟨none⟩, ""⟩⟩, n + 1)
      CallPostRestEndPointTransaction := fun _ _ _ n =>
        (⟨0, some connectionRefused, ⟨"", ""⟩⟩, n + 1)
      CallPostRestEndPointMultiTransactions := fun address _ _ n =>
        if address = "observer0" then
          (⟨200, none, ⟨2, fun p => if p = 0 then some "hash0" else
            if p = 1 then some "hash1" else none, ""⟩⟩, n + 1)
        else
          (⟨200, none, ⟨2, fun p => if p = 0 then some "hash2" else
            if p = 1 then some "hash3" else none, ""⟩⟩, n + 1) }
  pubKeyConverter := bytesConverter

/-- The batch of that test: two transactions of shard 0, then two of shard 1. -/
def byShardBatch : List Transaction :=
  [⟨"bbbbbb", "aaaaaa"⟩, ⟨"bbbbbb", "aaaaaa"⟩, ⟨"cccccc", "aaaaaa"⟩, ⟨"cccccc", "aaaaaa"⟩]

/-- The hashes the observers of that test return: by shard and position. -/
def byShardHashes (k p : Nat) : String :=
  if k = 0 then (if p = 0 then "hash0" else "hash1")
  else (if p = 0 then "hash2" else "hash3")

/-! ## `faucet/privateKeysLoader.go`: loading the private keys -/

/-- The function `strings.Contains` on the characters of its arguments. -/
def containsChars (s substr : List Char) : Bool :=
  match s with
  | [] => substr.isEmpty
  | c :: cs => substr.isPrefixOf (c :: cs) || containsChars cs substr

/-- The function `strings.Contains`. -/
def stringsContains (s substr : String) : Bool :=
  containsChars s.toList substr.toList

/-- The type `PrivateKeysLoader`, with what `loadPrivKeysBytesFromPemFile` uses
of it.  `LoadSkFromPemFile` stands for `core.LoadSkFromPemFile` of elrond-go,
called with the location of the file and an index: it hands back the key (a
`[]byte`, `none` is nil) and the error, an error being given by the text of
its `Error()`. -/
structure PrivateKeysLoader where
  pemFileLocation : String
  LoadSkFromPemFile : String → Nat → Option (List Nat) × Option String

/-- The method `PrivateKeysLoader.loadPrivKeysBytesFromPemFile`.  Its `for`
loop has no bound: `fuel` is the number of turns the loop may take, and `none`
says that the loop has not returned within them.  A result is the pair of the
slice of keys (`none` is nil) and the error. -/
def PrivateKeysLoader.loadPrivKeysLoop (pkl : PrivateKeysLoader) :
    Nat → Nat → List (Option (List Nat)) →
      Option (Option (List (Option (List Nat))) × Option GoError)
  | 0, _, _ => none
  | fuel + 1, index, privateKeysSlice =>
    match pkl.LoadSkFromPemFile pkl.pemFileLocation index with
    | (sk, some err) =>
      if stringsContains err "invalid private key index" then
        if privateKeysSlice.length = 0 then some (none, some (.text err))
        else some (some privateKeysSlice, none)
      else
        pkl.loadPrivKeysLoop fuel (index + 1) (privateKeysSlice ++ [sk])
    | (sk, none) =>
      pkl.loadPrivKeysLoop fuel (index + 1) (privateKeysSlice ++ [sk])

/-- The method `PrivateKeysLoader.loadPrivKeysBytesFromPemFile`, run for at
most `fuel` turns of its loop. -/
def PrivateKeysLoader.loadPrivKeysBytesFromPemFile (pkl : PrivateKeysLoader) (fuel : Nat) :
    Option (Option (List (Option (List Nat))) × Option GoError) :=
  pkl.loadPrivKeysLoop fuel 0 []

/-- Whether the loader fails at an index with an error about the index, the
one failure on which the loop of `loadPrivKeysBytesFromPemFile` returns. -/
def PrivateKeysLoader.isIndexError (pkl : PrivateKeysLoader) (index : Nat) : Bool :=
  match (pkl.LoadSkFromPemFile pkl.pemFileLocation index).2 with
  | some err => stringsContains err "invalid private key index"
  | none => false

/-- A loader on a file that cannot be opened: every index fails, and the
failure is not about the index. -/
def missingPemFile : PrivateKeysLoader where
  pemFileLocation := "keys.pem"
  LoadSkFromPemFile := fun location _ =>
    (none, some ("open " ++ location ++ ": no such file or directory"))

/-- A loader on a file whose key 0 loads, whose key 1 is malformed and which
has no key 2. -/
def malformedSecondKey : PrivateKeysLoader where
  pemFileLocation := "keys.pem"
  LoadSkFromPemFile := fun _ index =>
    if index = 0 then (some [1, 2, 3], none)
    else if index = 1 then (none, some "illegal base64 data at input byte 4")
    else (none, some "invalid private key index 2")

/-- A loader on a file with the keys 0 and 1 and no other. -/
def twoKeys : PrivateKeysLoader where
  pemFileLocation := "keys.pem"
  LoadSkFromPemFile := fun _ index =>
    if index = 0 then (some [1, 2, 3], none)
    else if index = 1 then (some [4, 5, 6], none)
    else (none, some ("invalid private key index " ++ toString index))

/-! ## Lemmas on failover loops -/

theorem answersFrom_length {σ R : Type} (call : String → σ → Answer R × σ) :
    ∀ (obs : List NodeData) (s : σ), (answersFrom call obs s).length = obs.length
  | [], _ => rfl
  | o :: os, s => by simp [answersFrom, answersFrom_length call os]

theorem failover_stop {σ R α : Type} (call : String → σ → Answer R × σ) (ev : String → Event)
    (verdict : Answer R → Verdict α) (exhausted : α) :
    ∀ (obs : List NodeData) (s : σ) (pre : List (Answer R)) (a : Answer R)
      (post : List (Answer R)) (v : α) (e : Option GoError),
      answersFrom call obs s = pre ++ a :: post →
      (∀ b ∈ pre, verdict b = .next) → verdict a = .stop v e →
      (failover call ev verdict exhausted obs s).value = v ∧
      (failover call ev verdict exhausted obs s).err = e ∧
      (failover call ev verdict exhausted obs s).trace =
        (obs.take (pre.length + 1)).map fun o => ev o.Address := by
  intro obs
  induction obs with
  | nil => intro s pre a post v e h; simp [answersFrom] at h
  | cons o os ih =>
    intro s pre a post v e h hpre ha
    cases pre with
    | nil =>
      simp only [answersFrom, List.nil_append, List.cons.injEq] at h
      simp [failover, Ret.after, h.1, ha]
    | cons b pre =>
      simp only [answersFrom, List.cons_append, List.cons.injEq] at h
      have hb : verdict b = .next := hpre b (List.mem_cons_self _ _)
      have := ih _ pre a post v e h.2 (fun c hc => hpre c (List.mem_cons_of_mem _ hc)) ha
      simp [failover, Ret.after, h.1, hb, this]

theorem failover_exhaust {σ R α : Type} (call : String → σ → Answer R × σ) (ev : String → Event)
    (verdict : Answer R → Verdict α) (exhausted : α) :
    ∀ (obs : List NodeData) (s : σ),
      (∀ b ∈ answersFrom call obs s, verdict b = .next) →
      (failover call ev verdict exhausted obs s).value = exhausted ∧
      (failover call ev verdict exhausted obs s).err = some .ErrSendingRequest ∧
      (failover call ev verdict exhausted obs s).trace = obs.map fun o => ev o.Address := by
  intro obs
  induction obs with
  | nil => intro s _; simp [failover]
  | cons o os ih =>
    intro s h
    simp only [answersFrom, List.mem_cons, forall_eq_or_imp] at h
    have := ih _ h.2
    simp [failover, Ret.after, h.1, this]

/-- Every run of a failover loop is of one of two kinds: all answers said
`next`, or some answer said `stop` after answers that all said `next`. -/
theorem failover_cases {σ R α : Type} (call : String → σ → Answer R × σ) (verdict : Answer R → Verdict α) :
    ∀ (obs : List NodeData) (s : σ),
      (∀ b ∈ answersFrom call obs s, verdict b = .next) ∨
      ∃ pre a post v e, answersFrom call obs s = pre ++ a :: post ∧
        (∀ b ∈ pre, verdict b = .next) ∧ verdict a = .stop v e := by
  intro obs
  induction obs with
  | nil => intro s; left; simp [answersFrom]
  | cons o os ih =>
    intro s
    cases hv : verdict (call o.Address s).1 with
    | stop v e =>
      right
      exact ⟨[], _, answersFrom call os (call o.Address s).2, v, e, rfl, by simp, hv⟩
    | next =>
      rcases ih (call o.Address s).2 with h | ⟨pre, a, post, v, e, h1, h2, h3⟩
      · left
        intro b hb
        simp only [answersFrom, List.mem_cons] at hb
        rcases hb with rfl | hb
        · exact hv
        · exact h b hb
      · right
        refine ⟨(call o.Address s).1 :: pre, a, post, v, e, by simp [answersFrom, h1], ?_, h3⟩
        intro b hb
        simp only [List.mem_cons] at hb
        rcases hb with rfl | hb
        · exact hv
        · exact h2 b hb

theorem getProofLoop_eq_failover {σ V : Type} (pp : ProofProcessor σ V) (path : String) :
    ∀ (obs : List NodeData) (s : σ),
      pp.getProofLoop path obs s =
        failover (fun a => pp.proc.CallGetRestEndPoint a path)
          (fun a => Event.CallGetRestEndPoint a path) getProofVerdict none obs s := by
  intro obs
  induction obs with
  | nil => intro s; rfl
  | cons o os ih =>
    intro s
    rcases h : pp.proc.CallGetRestEndPoint o.Address path s with ⟨⟨code, err, resp⟩, s1⟩
    cases err with
    | some e => simp [ProofProcessor.getProofLoop, failover, getProofVerdict, h, ih]
    | none =>
      by_cases h1 : resp.Error = "" <;> by_cases h2 : code = StatusOK <;>
        simp [ProofProcessor.getProofLoop, failover, getProofVerdict, h, ih, h1, h2]

theorem verifyProofLoop_eq_failover {σ V : Type} (pp : ProofProcessor σ V) (path : String)
    (req : VerifyProofRequest) :
    ∀ (obs : List NodeData) (s : σ),
      pp.verifyProofLoop path req obs s =
        failover (fun a => pp.proc.CallPostRestEndPointVerifyProof a path req)
          (fun a => Event.CallPostRestEndPoint a path) verifyProofVerdict false obs s := by
  intro obs
  induction obs with
  | nil => intro s; rfl
  | cons o os ih =>
    intro s
    rcases h : pp.proc.CallPostRestEndPointVerifyProof o.Address path req s with
      ⟨⟨code, err, resp⟩, s1⟩
    cases err with
    | some e => simp [ProofProcessor.verifyProofLoop, failover, verifyProofVerdict, h, ih]
    | none =>
      by_cases h1 : resp.Error = "" <;> by_cases h2 : code = StatusOK <;>
        simp [ProofProcessor.verifyProofLoop, failover, verifyProofVerdict, h, ih, h1, h2]

theorem executeQueryLoop_eq_failover {σ V : Type} (scp : SCQueryProcessor σ V) (query : SCQuery) :
    ∀ (obs : List NodeData) (s : σ),
      scp.executeQueryLoop query obs s =
        failover (fun a => scp.proc.CallPostRestEndPointVmValue a SCQueryServicePath
            (scp.createRequestFromQuery query))
          (fun a => Event.CallPostRestEndPoint a SCQueryServicePath)
          executeQueryVerdict none obs s := by
  intro obs
  induction obs with
  | nil => intro s; rfl
  | cons o os ih =>
    intro s
    rcases h : scp.proc.CallPostRestEndPointVmValue o.Address SCQueryServicePath
      (scp.createRequestFromQuery query) s with ⟨⟨code, err, resp⟩, s1⟩
    by_cases h0 : code = StatusNotFound ∨ code = StatusRequestTimeout
    · simp [SCQueryProcessor.executeQueryLoop, failover, executeQueryVerdict, h, ih, h0]
    · by_cases h2 : code = StatusOK
      · subst h2
        simp [SCQueryProcessor.executeQueryLoop, failover, executeQueryVerdict, h, h0]
      · by_cases h1 : resp.Error.length > 0 <;>
          simp [SCQueryProcessor.executeQueryLoop, failover, executeQueryVerdict, h, h0, h1, h2]

/-- When the answers before some answer all said `next`, the observers up to
the one that gave it have been called, in order. -/
theorem failover_trace_begins {σ R α : Type} (call : String → σ → Answer R × σ)
    (ev : String → Event) (verdict : Answer R → Verdict α) (exhausted : α) :
    ∀ (obs : List NodeData) (s : σ) (pre : List (Answer R)) (a : Answer R)
      (post : List (Answer R)),
      answersFrom call obs s = pre ++ a :: post →
      (∀ b ∈ pre, verdict b = .next) →
      ((obs.take (pre.length + 1)).map fun o => ev o.Address) <+:
        (failover call ev verdict exhausted obs s).trace := by
  intro obs
  induction obs with
  | nil => intro s pre a post h; simp [answersFrom] at h
  | cons o os ih =>
    intro s pre a post h hpre
    cases pre with
    | nil =>
      simp only [failover, Ret.after, List.length_nil, Nat.zero_add, List.take_succ_cons,
        List.take_zero, List.map_cons, List.map_nil]
      exact List.prefix_iff_eq_append.mpr (by simp)
    | cons b pre =>
      simp only [answersFrom, List.cons_append, List.cons.injEq] at h
      have hb : verdict (call o.Address s).1 = .next := by
        rw [h.1]; exact hpre b (List.mem_cons_self _ _)
      have := ih _ pre a post h.2 (fun c hc => hpre c (List.mem_cons_of_mem _ hc))
      simp only [failover, Ret.after, hb, List.length_cons, List.take_succ_cons, List.map_cons]
      exact (List.cons_prefix_cons).mpr ⟨rfl, this⟩

/-- The observers a failover loop calls are the first `k` of the list, in
order; either all were called and all answers said `next`, or the last one
called gave the answer the result comes from. -/
theorem failover_contacts_initial_segment {σ R α : Type} (call : String → σ → Answer R × σ)
    (ev : String → Event) (verdict : Answer R → Verdict α) (exhausted : α)
    (obs : List NodeData) (s : σ) :
    ∃ k, k ≤ obs.length ∧
      (failover call ev verdict exhausted obs s).trace =
        ((obs.take k).map fun o => ev o.Address) ∧
      ((k = obs.length ∧ (failover call ev verdict exhausted obs s).value = exhausted ∧
          (failover call ev verdict exhausted obs s).err = some .ErrSendingRequest ∧
          ∀ b ∈ answersFrom call obs s, verdict b = .next) ∨
        (0 < k ∧ ∃ a, (answersFrom call obs s)[k - 1]? = some a ∧
          verdict a = .stop (failover call ev verdict exhausted obs s).value
            (failover call ev verdict exhausted obs s).err)) := by
  rcases failover_cases call verdict obs s with hall | ⟨pre, a, post, v, e, h1, h2, h3⟩
  · obtain ⟨g1, g2, g3⟩ := failover_exhaust call ev verdict exhausted obs s hall
    exact ⟨obs.length, Nat.le_refl _, by rw [g3, List.take_length], Or.inl ⟨rfl, g1, g2, hall⟩⟩
  · obtain ⟨g1, g2, g3⟩ := failover_stop call ev verdict exhausted obs s pre a post v e h1 h2 h3
    have hlen : pre.length + 1 ≤ obs.length := by
      have := answersFrom_length call obs s
      rw [h1] at this
      simp only [List.length_append, List.length_cons] at this
      omega
    refine ⟨pre.length + 1, hlen, g3, Or.inr ⟨Nat.succ_pos _, a, ?_, ?_⟩⟩
    · rw [h1, Nat.add_sub_cancel, List.getElem?_append_right (Nat.le_refl _), Nat.sub_self]
      exact List.getElem?_cons_zero
    · rw [g1, g2]; exact h3

/-! ### The three methods as failover loops -/

theorem GetProof_eq_failover {σ V : Type} (pp : ProofProcessor σ V) (rootHash address : List Nat)
    (s : σ) (obs : List NodeData) (tr : List Event) (s0 : σ)
    (hobs : pp.getObserversForAddress (bytesToString address) s = ⟨obs, none, tr, s0⟩) :
    pp.GetProof rootHash address s =
      { failover (fun a => pp.proc.CallGetRestEndPoint a (getProofEndpoint rootHash address))
          (fun a => Event.CallGetRestEndPoint a (getProofEndpoint rootHash address))
          getProofVerdict none obs s0 with
        trace := tr ++ (failover
          (fun a => pp.proc.CallGetRestEndPoint a (getProofEndpoint rootHash address))
          (fun a => Event.CallGetRestEndPoint a (getProofEndpoint rootHash address))
          getProofVerdict none obs s0).trace } := by
  simp only [ProofProcessor.GetProof, hobs, getProofLoop_eq_failover, getProofEndpoint]

theorem VerifyProof_eq_failover {σ V : Type} (pp : ProofProcessor σ V)
    (rootHash address : List Nat) (proof : List (List Nat))
    (s : σ) (obs : List NodeData) (tr : List Event) (s0 : σ)
    (hobs : pp.getObserversForAddress (bytesToString address) s = ⟨obs, none, tr, s0⟩) :
    pp.VerifyProof rootHash address proof s =
      { failover (fun a => pp.proc.CallPostRestEndPointVerifyProof a "/proof/verify"
            ⟨rootHash, address, proof⟩)
          (fun a => Event.CallPostRestEndPoint a "/proof/verify")
          verifyProofVerdict false obs s0 with
        trace := tr ++ (failover
          (fun a => pp.proc.CallPostRestEndPointVerifyProof a "/proof/verify"
            ⟨rootHash, address, proof⟩)
          (fun a => Event.CallPostRestEndPoint a "/proof/verify")
          verifyProofVerdict false obs s0).trace } := by
  simp only [ProofProcessor.VerifyProof, hobs, verifyProofLoop_eq_failover]

theorem ExecuteQuery_eq_failover {σ V : Type} (scp : SCQueryProcessor σ V) (query : SCQuery)
    (s : σ) (addressBytes : List Nat) (shardID : Nat) (obs : List NodeData) (s0 : σ)
    (hr : scp.Routes query s addressBytes shardID obs s0) :
    scp.ExecuteQuery query s =
      { failover (fun a => scp.proc.CallPostRestEndPointVmValue a SCQueryServicePath
            (scp.createRequestFromQuery query))
          (fun a => Event.CallPostRestEndPoint a SCQueryServicePath)
          executeQueryVerdict none obs s0 with
        trace := [.Decode query.ScAddress, .ComputeShardId addressBytes, .GetObservers shardID] ++
          (failover (fun a => scp.proc.CallPostRestEndPointVmValue a SCQueryServicePath
            (scp.createRequestFromQuery query))
          (fun a => Event.CallPostRestEndPoint a SCQueryServicePath)
          executeQueryVerdict none obs s0).trace } := by
  obtain ⟨s1, s2, h1, h2, h3⟩ := hr
  simp only [SCQueryProcessor.ExecuteQuery, h1, h2, h3, executeQueryLoop_eq_failover]


/-! ### Decisions on one answer -/

theorem getProofVerdict_next (a : Answer GetProofResponse)
    (h : a.err ≠ none ∨ (a.response.Error = "" ∧ a.respCode ≠ StatusOK)) :
    getProofVerdict a = .next := by
  rcases a with ⟨code, err, resp⟩
  cases err with
  | some e => simp [getProofVerdict]
  | none =>
    rcases h with h | ⟨h1, h2⟩
    · exact absurd rfl h
    · simp only at h1 h2
      simp [getProofVerdict, h1, h2]

theorem getProofVerdict_next_iff (a : Answer GetProofResponse) :
    getProofVerdict a = .next ↔
      (a.err ≠ none ∨ (a.err = none ∧ a.response.Error = "" ∧ a.respCode ≠ StatusOK)) := by
  rcases a with ⟨code, err, resp⟩
  cases err with
  | some e => simp [getProofVerdict]
  | none =>
    by_cases h1 : resp.Error = "" <;> by_cases h2 : code = StatusOK <;>
      simp [getProofVerdict, h1, h2]

theorem getProofVerdict_stop_iff (a : Answer GetProofResponse) (v : Option (List (List Nat)))
    (e : Option GoError) :
    getProofVerdict a = .stop v e ↔
      (a.err = none ∧ a.response.Error ≠ "" ∧ v = none ∧ e = some (.text a.response.Error)) ∨
      (a.err = none ∧ a.response.Error = "" ∧ a.respCode = StatusOK ∧ v = a.response.Data ∧
        e = none) := by
  rcases a with ⟨code, err, resp⟩
  cases err with
  | some e => simp [getProofVerdict]
  | none =>
    by_cases h1 : resp.Error = "" <;> by_cases h2 : code = StatusOK <;>
      simp [getProofVerdict, h1, h2, eq_comm]

theorem verifyProofVerdict_next (a : Answer VerifyProofResponse)
    (h : a.err ≠ none ∨ (a.response.Error = "" ∧ a.respCode ≠ StatusOK)) :
    verifyProofVerdict a = .next := by
  rcases a with ⟨code, err, resp⟩
  cases err with
  | some e => simp [verifyProofVerdict]
  | none =>
    rcases h with h | ⟨h1, h2⟩
    · exact absurd rfl h
    · simp only at h1 h2
      simp [verifyProofVerdict, h1, h2]

theorem verifyProofVerdict_next_iff (a : Answer VerifyProofResponse) :
    verifyProofVerdict a = .next ↔
      (a.err ≠ none ∨ (a.err = none ∧ a.response.Error = "" ∧ a.respCode ≠ StatusOK)) := by
  rcases a with ⟨code, err, resp⟩
  cases err with
  | some e => simp [verifyProofVerdict]
  | none =>
    by_cases h1 : resp.Error = "" <;> by_cases h2 : code = StatusOK <;>
      simp [verifyProofVerdict, h1, h2]

theorem verifyProofVerdict_stop_iff (a : Answer VerifyProofResponse) (v : Bool)
    (e : Option GoError) :
    verifyProofVerdict a = .stop v e ↔
      (a.err = none ∧ a.response.Error ≠ "" ∧ v = false ∧ e = some (.text a.response.Error)) ∨
      (a.err = none ∧ a.response.Error = "" ∧ a.respCode = StatusOK ∧ v = a.response.Data ∧
        e = none) := by
  rcases a with ⟨code, err, resp⟩
  cases err with
  | some e => simp [verifyProofVerdict]
  | none =>
    by_cases h1 : resp.Error = "" <;> by_cases h2 : code = StatusOK <;>
      simp [verifyProofVerdict, h1, h2, eq_comm]

/-! ### What a run of `GetProof` and of `VerifyProof` returns -/

theorem GetProof_stop {σ V : Type} (pp : ProofProcessor σ V) (rootHash address : List Nat)
    (s : σ) (obs : List NodeData) (tr : List Event) (s0 : σ)
    (hobs : pp.getObserversForAddress (bytesToString address) s = ⟨obs, none, tr, s0⟩)
    (pre : List (Answer GetProofResponse)) (a : Answer GetProofResponse)
    (post : List (Answer GetProofResponse)) (v : Option (List (List Nat))) (e : Option GoError)
    (h : pp.getProofAnswers rootHash address obs s0 = pre ++ a :: post)
    (hpre : ∀ b ∈ pre, getProofVerdict b = .next) (ha : getProofVerdict a = .stop v e) :
    (pp.GetProof rootHash address s).value = v ∧ (pp.GetProof rootHash address s).err = e ∧
      (pp.GetProof rootHash address s).trace =
        tr ++ getCalls (getProofEndpoint rootHash address) (obs.take (pre.length + 1)) := by
  rw [GetProof_eq_failover pp rootHash address s obs tr s0 hobs]
  obtain ⟨h1, h2, h3⟩ := failover_stop _ (fun a => Event.CallGetRestEndPoint a
    (getProofEndpoint rootHash address)) getProofVerdict none obs s0 pre a post v e h hpre ha
  exact ⟨h1, h2, by simp only [h3, getCalls]⟩

theorem GetProof_exhaust {σ V : Type} (pp : ProofProcessor σ V) (rootHash address : List Nat)
    (s : σ) (obs : List NodeData) (tr : List Event) (s0 : σ)
    (hobs : pp.getObserversForAddress (bytesToString address) s = ⟨obs, none, tr, s0⟩)
    (h : ∀ b ∈ pp.getProofAnswers rootHash address obs s0, getProofVerdict b = .next) :
    (pp.GetProof rootHash address s).value = none ∧
      (pp.GetProof rootHash address s).err = some .ErrSendingRequest ∧
      (pp.GetProof rootHash address s).trace =
        tr ++ getCalls (getProofEndpoint rootHash address) obs := by
  rw [GetProof_eq_failover pp rootHash address s obs tr s0 hobs]
  obtain ⟨h1, h2, h3⟩ := failover_exhaust _ (fun a => Event.CallGetRestEndPoint a
    (getProofEndpoint rootHash address)) getProofVerdict none obs s0 h
  exact ⟨h1, h2, by simp only [h3, getCalls]⟩

theorem VerifyProof_stop {σ V : Type} (pp : ProofProcessor σ V) (rootHash address : List Nat)
    (proof : List (List Nat)) (s : σ) (obs : List NodeData) (tr : List Event) (s0 : σ)
    (hobs : pp.getObserversForAddress (bytesToString address) s = ⟨obs, none, tr, s0⟩)
    (pre : List (Answer VerifyProofResponse)) (a : Answer VerifyProofResponse)
    (post : List (Answer VerifyProofResponse)) (v : Bool) (e : Option GoError)
    (h : pp.verifyProofAnswers rootHash address proof obs s0 = pre ++ a :: post)
    (hpre : ∀ b ∈ pre, verifyProofVerdict b = .next) (ha : verifyProofVerdict a = .stop v e) :
    (pp.VerifyProof rootHash address proof s).value = v ∧
      (pp.VerifyProof rootHash address proof s).err = e ∧
      (pp.VerifyProof rootHash address proof s).trace =
        tr ++ postCalls "/proof/verify" (obs.take (pre.length + 1)) := by
  rw [VerifyProof_eq_failover pp rootHash address proof s obs tr s0 hobs]
  obtain ⟨h1, h2, h3⟩ := failover_stop _ (fun a => Event.CallPostRestEndPoint a
    "/proof/verify") verifyProofVerdict false obs s0 pre a post v e h hpre ha
  exact ⟨h1, h2, by simp only [h3, postCalls]⟩

theorem VerifyProof_exhaust {σ V : Type} (pp : ProofProcessor σ V) (rootHash address : List Nat)
    (proof : List (List Nat)) (s : σ) (obs : List NodeData) (tr : List Event) (s0 : σ)
    (hobs : pp.getObserversForAddress (bytesToString address) s = ⟨obs, none, tr, s0⟩)
    (h : ∀ b ∈ pp.verifyProofAnswers rootHash address proof obs s0,
      verifyProofVerdict b = .next) :
    (pp.VerifyProof rootHash address proof s).value = false ∧
      (pp.VerifyProof rootHash address proof s).err = some .ErrSendingRequest ∧
      (pp.VerifyProof rootHash address proof s).trace = tr ++ postCalls "/proof/verify" obs := by
  rw [VerifyProof_eq_failover pp rootHash address proof s obs tr s0 hobs]
  obtain ⟨h1, h2, h3⟩ := failover_exhaust _ (fun a => Event.CallPostRestEndPoint a
    "/proof/verify") verifyProofVerdict false obs s0 h
  exact ⟨h1, h2, by simp only [h3, postCalls]⟩

theorem GetProof_trace_begins {σ V : Type} (pp : ProofProcessor σ V)
    (rootHash address : List Nat)
    (s : σ) (obs : List NodeData) (tr : List Event) (s0 : σ)
    (hobs : pp.getObserversForAddress (bytesToString address) s = ⟨obs, none, tr, s0⟩)
    (pre : List (Answer GetProofResponse)) (a : Answer GetProofResponse)
    (post : List (Answer GetProofResponse))
    (h : pp.getProofAnswers rootHash address obs s0 = pre ++ a :: post)
    (hpre : ∀ b ∈ pre, getProofVerdict b = .next) :
    tr ++ getCalls (getProofEndpoint rootHash address) (obs.take (pre.length + 1)) <+:
      (pp.GetProof rootHash address s).trace := by
  rw [GetProof_eq_failover pp rootHash address s obs tr s0 hobs]
  exact (List.prefix_append_right_inj tr).mpr
    (failover_trace_begins _ (fun a => Event.CallGetRestEndPoint a
      (getProofEndpoint rootHash address)) getProofVerdict none obs s0 pre a post h hpre)

theorem VerifyProof_trace_begins {σ V : Type} (pp : ProofProcessor σ V)
    (rootHash address : List Nat) (proof : List (List Nat))
    (s : σ) (obs : List NodeData) (tr : List Event) (s0 : σ)
    (hobs : pp.getObserversForAddress (bytesToString address) s = ⟨obs, none, tr, s0⟩)
    (pre : List (Answer VerifyProofResponse)) (a : Answer VerifyProofResponse)
    (post : List (Answer VerifyProofResponse))
    (h : pp.verifyProofAnswers rootHash address proof obs s0 = pre ++ a :: post)
    (hpre : ∀ b ∈ pre, verifyProofVerdict b = .next) :
    tr ++ postCalls "/proof/verify" (obs.take (pre.length + 1)) <+:
      (pp.VerifyProof rootHash address proof s).trace := by
  rw [VerifyProof_eq_failover pp rootHash address proof s obs tr s0 hobs]
  exact (List.prefix_append_right_inj tr).mpr
    (failover_trace_begins _ (fun a => Event.CallPostRestEndPoint a
      "/proof/verify") verifyProofVerdict false obs s0 pre a post h hpre)

/-! ### `fmt.Errorf` on an error field -/

/-- A format without a percent sign is printed as it is. -/
theorem fmtSprintf_of_no_percent (format : String) (h : '%' ∉ format.toList) :
    fmtSprintf format = format := by
  have h1 : format.toList.takeWhile (fun c => decide (c ≠ '%')) = format.toList := by
    rw [List.takeWhile_eq_self_iff]
    intro c hc
    simp only [ne_eq, decide_not, Bool.not_eq_eq_eq_not, Bool.not_true, decide_eq_false_iff_not]
    rintro rfl
    exact h hc
  have h2 : format.toList.dropWhile (fun c => decide (c ≠ '%')) = [] := by
    rw [List.dropWhile_eq_nil_iff]
    intro c hc
    simp only [ne_eq, decide_not, Bool.not_eq_eq_eq_not, Bool.not_true, decide_eq_false_iff_not]
    rintro rfl
    exact h hc
  simp only [fmtSprintf, fmtDoPrintf, h1, h2]
  rfl

/-! ### What a run of `ExecuteQuery` returns -/

theorem executeQueryVerdict_next_iff {V : Type} (a : Answer (ResponseVmValue V)) :
    executeQueryVerdict a = .next ↔
      (a.respCode = StatusNotFound ∨ a.respCode = StatusRequestTimeout) := by
  unfold executeQueryVerdict
  split_ifs <;> simp_all

theorem executeQueryVerdict_ok {V : Type} (a : Answer (ResponseVmValue V))
    (h : a.respCode = StatusOK) : executeQueryVerdict a = .stop a.response.Data.Data none := by
  simp [executeQueryVerdict, h, StatusOK, StatusNotFound, StatusRequestTimeout]

theorem executeQueryVerdict_stop_iff {V : Type} (a : Answer (ResponseVmValue V)) (v : Option V)
    (e : Option GoError) :
    executeQueryVerdict a = .stop v e ↔
      (a.respCode = StatusOK ∧ v = a.response.Data.Data ∧ e = none) ∨
      (a.respCode ≠ StatusOK ∧ a.respCode ≠ StatusNotFound ∧ a.respCode ≠ StatusRequestTimeout ∧
        a.response.Error.length > 0 ∧ v = none ∧ e = some (fmtErrorf a.response.Error)) ∨
      (a.respCode ≠ StatusOK ∧ a.respCode ≠ StatusNotFound ∧ a.respCode ≠ StatusRequestTimeout ∧
        ¬ a.response.Error.length > 0 ∧ v = none ∧ e = a.err) := by
  by_cases h0 : a.respCode = StatusNotFound ∨ a.respCode = StatusRequestTimeout
  · have h2 : a.respCode ≠ StatusOK := by
      rcases h0 with h0 | h0 <;> rw [h0] <;> decide
    simp only [executeQueryVerdict, h0, if_true, h2]
    constructor
    · intro h; cases h
    · rintro (⟨h, _⟩ | ⟨_, h3, h4, _⟩ | ⟨_, h3, h4, _⟩)
      · exact absurd h (fun h => h)
      · rcases h0 with h0 | h0
        · exact absurd h0 h3
        · exact absurd h0 h4
      · rcases h0 with h0 | h0
        · exact absurd h0 h3
        · exact absurd h0 h4
  · have h3 : a.respCode ≠ StatusNotFound := fun h => h0 (Or.inl h)
    have h4 : a.respCode ≠ StatusRequestTimeout := fun h => h0 (Or.inr h)
    by_cases h2 : a.respCode = StatusOK
    · rw [executeQueryVerdict, if_neg h0, if_pos h2]
      simp only [h2, Verdict.stop.injEq, ne_eq, not_true_eq_false, false_and, or_false, true_and]
      exact ⟨fun h => ⟨h.1.symm, h.2.symm⟩, fun h => ⟨h.1.symm, h.2.symm⟩⟩
    · by_cases h1 : a.response.Error.length > 0 <;>
        simp [executeQueryVerdict, h0, h1, h2, h3, h4, eq_comm]

theorem ExecuteQuery_stop {σ V : Type} (scp : SCQueryProcessor σ V) (query : SCQuery)
    (s : σ) (addressBytes : List Nat) (shardID : Nat) (obs : List NodeData) (s0 : σ)
    (hr : scp.Routes query s addressBytes shardID obs s0)
    (pre : List (Answer (ResponseVmValue V))) (a : Answer (ResponseVmValue V))
    (post : List (Answer (ResponseVmValue V))) (v : Option V) (e : Option GoError)
    (h : scp.executeQueryAnswers query obs s0 = pre ++ a :: post)
    (hpre : ∀ b ∈ pre, executeQueryVerdict b = .next) (ha : executeQueryVerdict a = .stop v e) :
    (scp.ExecuteQuery query s).value = v ∧ (scp.ExecuteQuery query s).err = e ∧
      (scp.ExecuteQuery query s).trace =
        [.Decode query.ScAddress, .ComputeShardId addressBytes, .GetObservers shardID] ++
          postCalls SCQueryServicePath (obs.take (pre.length + 1)) := by
  rw [ExecuteQuery_eq_failover scp query s addressBytes shardID obs s0 hr]
  obtain ⟨h1, h2, h3⟩ := failover_stop _ (fun a => Event.CallPostRestEndPoint a
    SCQueryServicePath) executeQueryVerdict none obs s0 pre a post v e h hpre ha
  exact ⟨h1, h2, by simp only [h3, postCalls]⟩

theorem ExecuteQuery_exhaust {σ V : Type} (scp : SCQueryProcessor σ V) (query : SCQuery)
    (s : σ) (addressBytes : List Nat) (shardID : Nat) (obs : List NodeData) (s0 : σ)
    (hr : scp.Routes query s addressBytes shardID obs s0)
    (h : ∀ b ∈ scp.executeQueryAnswers query obs s0, executeQueryVerdict b = .next) :
    (scp.ExecuteQuery query s).value = none ∧
      (scp.ExecuteQuery query s).err = some .ErrSendingRequest ∧
      (scp.ExecuteQuery query s).trace =
        [.Decode query.ScAddress, .ComputeShardId addressBytes, .GetObservers shardID] ++
          postCalls SCQueryServicePath obs := by
  rw [ExecuteQuery_eq_failover scp query s addressBytes shardID obs s0 hr]
  obtain ⟨h1, h2, h3⟩ := failover_exhaust _ (fun a => Event.CallPostRestEndPoint a
    SCQueryServicePath) executeQueryVerdict none obs s0 h
  exact ⟨h1, h2, by simp only [h3, postCalls]⟩

theorem ExecuteQuery_trace_begins {σ V : Type} (scp : SCQueryProcessor σ V) (query : SCQuery)
    (s : σ) (addressBytes : List Nat) (shardID : Nat) (obs : List NodeData) (s0 : σ)
    (hr : scp.Routes query s addressBytes shardID obs s0)
    (pre : List (Answer (ResponseVmValue V))) (a : Answer (ResponseVmValue V))
    (post : List (Answer (ResponseVmValue V)))
    (h : scp.executeQueryAnswers query obs s0 = pre ++ a :: post)
    (hpre : ∀ b ∈ pre, executeQueryVerdict b = .next) :
    [.Decode query.ScAddress, .ComputeShardId addressBytes, .GetObservers shardID] ++
        postCalls SCQueryServicePath (obs.take (pre.length + 1)) <+:
      (scp.ExecuteQuery query s).trace := by
  rw [ExecuteQuery_eq_failover scp query s addressBytes shardID obs s0 hr]
  exact (List.prefix_append_right_inj _).mpr
    (failover_trace_begins _ (fun a => Event.CallPostRestEndPoint a
      SCQueryServicePath) executeQueryVerdict none obs s0 pre a post h hpre)

/-- The directory calls of `ExecuteQuery` succeeded when it returns a nil error
or a VM output. -/
theorem ExecuteQuery_routes_of_value {σ V : Type} (scp : SCQueryProcessor σ V) (query : SCQuery)
    (s : σ) (v : V) (hv : (scp.ExecuteQuery query s).value = some v) :
    ∃ addressBytes shardID obs s0, scp.Routes query s addressBytes shardID obs s0 := by
  rcases h1 : scp.pubKeyConverter.Decode query.ScAddress s with ⟨r1, s1⟩
  cases r1 with
  | error e => simp [SCQueryProcessor.ExecuteQuery, h1] at hv
  | ok addressBytes =>
    rcases h2 : scp.proc.ComputeShardId addressBytes s1 with ⟨r2, s2⟩
    cases r2 with
    | error e => simp [SCQueryProcessor.ExecuteQuery, h1, h2] at hv
    | ok shardID =>
      rcases h3 : scp.proc.GetObservers shardID s2 with ⟨r3, s3⟩
      cases r3 with
      | error e => simp [SCQueryProcessor.ExecuteQuery, h1, h2, h3] at hv
      | ok obs => exact ⟨addressBytes, shardID, obs, s3, s1, s2, h1, h2, h3⟩

/-! ## Failover in `GetProof` and `VerifyProof` -/

/-- C1, as stated, fails: observer `A` answers with no transport error and the
error field `"boom"`, observer `B` answers status 200 with an empty error field
and a payload.  `GetProof` and `VerifyProof` do not go on to `B`: they return
the error `"boom"` and no payload after calling `A` only, so they do not
succeed with the payload of `B`. -/
theorem proof_explicit_error_not_skipped :
    explicitErrorThenOk.getProofAnswers [] [] observersAB 0 =
        [⟨500, none, ⟨none, "boom"⟩⟩, ⟨200, none, ⟨some [[1, 2]], ""⟩⟩] ∧
      (explicitErrorThenOk.GetProof [] [] 0).err = some (.text "boom") ∧
      (explicitErrorThenOk.GetProof [] [] 0).value = none ∧
      (explicitErrorThenOk.GetProof [] [] 0).trace =
        routingTrace ++ [.CallGetRestEndPoint "A" (getProofEndpoint [] [])] ∧
      ¬((explicitErrorThenOk.GetProof [] [] 0).err = none ∧
        (explicitErrorThenOk.GetProof [] [] 0).value = some [[1, 2]]) ∧
      explicitErrorThenOk.verifyProofAnswers [] [] [] observersAB 0 =
        [⟨500, none, ⟨false, "boom"⟩⟩, ⟨200, none, ⟨true, ""⟩⟩] ∧
      (explicitErrorThenOk.VerifyProof [] [] [] 0).err = some (.text "boom") ∧
      (explicitErrorThenOk.VerifyProof [] [] [] 0).value = false ∧
      (explicitErrorThenOk.VerifyProof [] [] [] 0).trace =
        routingTrace ++ [.CallPostRestEndPoint "A" "/proof/verify"] ∧
      ¬((explicitErrorThenOk.VerifyProof [] [] [] 0).err = none ∧
        (explicitErrorThenOk.VerifyProof [] [] [] 0).value = true) := by
  refine ⟨rfl, rfl, rfl, rfl, by decide, rfl, rfl, rfl, rfl, by decide⟩

/-- C1, amended: in `GetProof` and in `VerifyProof`, when every observer before
some observer answered with a transport error, or with an empty error field and
a status other than 200, the loop has gone on to that observer (it is called,
after the ones before it, in list order).  If that observer answers with no
transport error and a populated error field, the call ends there with that
error field as the error and no payload; if it answers with no transport
error, an empty error field and status 200, the call succeeds with its
payload. -/
theorem proof_failover_on_retriable_answers {σ V : Type} (pp : ProofProcessor σ V)
    (rootHash address : List Nat) (proof : List (List Nat)) (s : σ)
    (obs : List NodeData) (tr : List Event) (s0 : σ)
    (hobs : pp.getObserversForAddress (bytesToString address) s = ⟨obs, none, tr, s0⟩) :
    (∀ pre a post, pp.getProofAnswers rootHash address obs s0 = pre ++ a :: post →
      (∀ b ∈ pre, b.err ≠ none ∨ (b.response.Error = "" ∧ b.respCode ≠ StatusOK)) →
      (tr ++ getCalls (getProofEndpoint rootHash address) (obs.take (pre.length + 1)) <+:
        (pp.GetProof rootHash address s).trace) ∧
      (a.err = none → a.response.Error ≠ "" →
        (pp.GetProof rootHash address s).value = none ∧
        (pp.GetProof rootHash address s).err = some (.text a.response.Error) ∧
        (pp.GetProof rootHash address s).trace =
          tr ++ getCalls (getProofEndpoint rootHash address) (obs.take (pre.length + 1))) ∧
      (a.err = none → a.response.Error = "" → a.respCode = StatusOK →
        (pp.GetProof rootHash address s).value = a.response.Data ∧
        (pp.GetProof rootHash address s).err = none ∧
        (pp.GetProof rootHash address s).trace =
          tr ++ getCalls (getProofEndpoint rootHash address) (obs.take (pre.length + 1)))) ∧
    (∀ pre a post, pp.verifyProofAnswers rootHash address proof obs s0 = pre ++ a :: post →
      (∀ b ∈ pre, b.err ≠ none ∨ (b.response.Error = "" ∧ b.respCode ≠ StatusOK)) →
      (tr ++ postCalls "/proof/verify" (obs.take (pre.length + 1)) <+:
        (pp.VerifyProof rootHash address proof s).trace) ∧
      (a.err = none → a.response.Error ≠ "" →
        (pp.VerifyProof rootHash address proof s).value = false ∧
        (pp.VerifyProof rootHash address proof s).err = some (.text a.response.Error) ∧
        (pp.VerifyProof rootHash address proof s).trace =
          tr ++ postCalls "/proof/verify" (obs.take (pre.length + 1))) ∧
      (a.err = none → a.response.Error = "" → a.respCode = StatusOK →
        (pp.VerifyProof rootHash address proof s).value = a.response.Data ∧
        (pp.VerifyProof rootHash address proof s).err = none ∧
        (pp.VerifyProof rootHash address proof s).trace =
          tr ++ postCalls "/proof/verify" (obs.take (pre.length + 1)))) := by
  constructor
  · intro pre a post h hpre
    have hn : ∀ b ∈ pre, getProofVerdict b = .next :=
      fun b hb => getProofVerdict_next b (hpre b hb)
    refine ⟨GetProof_trace_begins pp rootHash address s obs tr s0 hobs pre a post h hn, ?_, ?_⟩
    · intro h1 h2
      exact GetProof_stop pp rootHash address s obs tr s0 hobs pre a post _ _ h hn
        ((getProofVerdict_stop_iff a _ _).mpr (Or.inl ⟨h1, h2, rfl, rfl⟩))
    · intro h1 h2 h3
      exact GetProof_stop pp rootHash address s obs tr s0 hobs pre a post _ _ h hn
        ((getProofVerdict_stop_iff a _ _).mpr (Or.inr ⟨h1, h2, h3, rfl, rfl⟩))
  · intro pre a post h hpre
    have hn : ∀ b ∈ pre, verifyProofVerdict b = .next :=
      fun b hb => verifyProofVerdict_next b (hpre b hb)
    refine ⟨VerifyProof_trace_begins pp rootHash address proof s obs tr s0 hobs pre a post h hn,
      ?_, ?_⟩
    · intro h1 h2
      exact VerifyProof_stop pp rootHash address proof s obs tr s0 hobs pre a post _ _ h hn
        ((verifyProofVerdict_stop_iff a _ _).mpr (Or.inl ⟨h1, h2, rfl, rfl⟩))
    · intro h1 h2 h3
      exact VerifyProof_stop pp rootHash address proof s obs tr s0 hobs pre a post _ _ h hn
        ((verifyProofVerdict_stop_iff a _ _).mpr (Or.inr ⟨h1, h2, h3, rfl, rfl⟩))

/-- Witness of C1, amended: observer `A` refuses the connection, observer `B`
answers status 200 with a payload; both calls succeed with the payload of `B`
after calling `A` and `B`. -/
theorem proof_failover_on_retriable_answers_witness :
    ((refusedThenOk.GetProof [] [] 0).value = some [[1, 2]] ∧
      (refusedThenOk.GetProof [] [] 0).err = none ∧
      (refusedThenOk.GetProof [] [] 0).trace =
        routingTrace ++ getCalls (getProofEndpoint [] []) (observersAB.take 2)) ∧
    ((refusedThenOk.VerifyProof [] [] [] 0).value = true ∧
      (refusedThenOk.VerifyProof [] [] [] 0).err = none ∧
      (refusedThenOk.VerifyProof [] [] [] 0).trace =
        routingTrace ++ postCalls "/proof/verify" (observersAB.take 2)) :=
  ⟨((proof_failover_on_retriable_answers refusedThenOk [] [] [] 0 observersAB routingTrace 0
      rfl).1 [⟨0, some connectionRefused, ⟨none, ""⟩⟩] ⟨200, none, ⟨some [[1, 2]], ""⟩⟩ [] rfl
      (by decide)).2.2 rfl rfl rfl,
   ((proof_failover_on_retriable_answers refusedThenOk [] [] [] 0 observersAB routingTrace 0
      rfl).2 [⟨0, some connectionRefused, ⟨false, ""⟩⟩] ⟨200, none, ⟨true, ""⟩⟩ [] rfl
      (by decide)).2.2 rfl rfl rfl⟩

/-- C2: `GetProof` (and likewise `VerifyProof`) returns a nil error only if
some observer answered with no transport error, status 200 and an empty error
field; the payload returned is the `Data` of that answer, and every observer
before it answered with a transport error, or with no transport error, an
empty error field and a status other than 200 (so it is the first such
observer in the order of the list). -/
theorem proof_success_only_from_first_ok {σ V : Type} (pp : ProofProcessor σ V)
    (rootHash address : List Nat) (proof : List (List Nat)) (s : σ) :
    ((pp.GetProof rootHash address s).err = none →
      ∃ obs tr s0 pre a post,
        pp.getObserversForAddress (bytesToString address) s = ⟨obs, none, tr, s0⟩ ∧
        pp.getProofAnswers rootHash address obs s0 = pre ++ a :: post ∧
        a.err = none ∧ a.respCode = StatusOK ∧ a.response.Error = "" ∧
        (pp.GetProof rootHash address s).value = a.response.Data ∧
        (∀ b ∈ pre, b.err ≠ none ∨
          (b.err = none ∧ b.response.Error = "" ∧ b.respCode ≠ StatusOK)) ∧
        (∀ b ∈ pre, ¬(b.err = none ∧ b.respCode = StatusOK ∧ b.response.Error = ""))) ∧
    ((pp.VerifyProof rootHash address proof s).err = none →
      ∃ obs tr s0 pre a post,
        pp.getObserversForAddress (bytesToString address) s = ⟨obs, none, tr, s0⟩ ∧
        pp.verifyProofAnswers rootHash address proof obs s0 = pre ++ a :: post ∧
        a.err = none ∧ a.respCode = StatusOK ∧ a.response.Error = "" ∧
        (pp.VerifyProof rootHash address proof s).value = a.response.Data ∧
        (∀ b ∈ pre, b.err ≠ none ∨
          (b.err = none ∧ b.response.Error = "" ∧ b.respCode ≠ StatusOK)) ∧
        (∀ b ∈ pre, ¬(b.err = none ∧ b.respCode = StatusOK ∧ b.response.Error = ""))) := by
  rcases hret : pp.getObserversForAddress (bytesToString address) s with ⟨obs, e0, tr, s0⟩
  constructor
  · intro herr
    cases e0 with
    | some e1 => simp [ProofProcessor.GetProof, hret] at herr
    | none =>
      rcases failover_cases (fun a => pp.proc.CallGetRestEndPoint a
          (getProofEndpoint rootHash address)) getProofVerdict obs s0 with
        hall | ⟨pre, a, post, v, e, h1, h2, h3⟩
      · have := (GetProof_exhaust pp rootHash address s obs tr s0 hret hall).2.1
        rw [this] at herr
        cases herr
      · obtain ⟨hv, he, _⟩ := GetProof_stop pp rootHash address s obs tr s0 hret pre a post v e
          h1 h2 h3
        rw [he] at herr
        subst herr
        rcases (getProofVerdict_stop_iff a v none).mp h3 with ⟨_, _, _, h4⟩ | ⟨g1, g2, g3, g4, _⟩
        · cases h4
        · refine ⟨obs, tr, s0, pre, a, post, rfl, h1, g1, g3, g2, by rw [hv, g4],
            fun b hb => (getProofVerdict_next_iff b).mp (h2 b hb), ?_⟩
          intro b hb ⟨k1, k2, _⟩
          rcases (getProofVerdict_next_iff b).mp (h2 b hb) with k | ⟨_, _, k⟩
          · exact k k1
          · exact k k2
  · intro herr
    cases e0 with
    | some e1 => simp [ProofProcessor.VerifyProof, hret] at herr
    | none =>
      rcases failover_cases (fun a => pp.proc.CallPostRestEndPointVerifyProof a "/proof/verify"
          ⟨rootHash, address, proof⟩) verifyProofVerdict obs s0 with
        hall | ⟨pre, a, post, v, e, h1, h2, h3⟩
      · have := (VerifyProof_exhaust pp rootHash address proof s obs tr s0 hret hall).2.1
        rw [this] at herr
        cases herr
      · obtain ⟨hv, he, _⟩ := VerifyProof_stop pp rootHash address proof s obs tr s0 hret
          pre a post v e h1 h2 h3
        rw [he] at herr
        subst herr
        rcases (verifyProofVerdict_stop_iff a v none).mp h3 with
          ⟨_, _, _, h4⟩ | ⟨g1, g2, g3, g4, _⟩
        · cases h4
        · refine ⟨obs, tr, s0, pre, a, post, rfl, h1, g1, g3, g2, by rw [hv, g4],
            fun b hb => (verifyProofVerdict_next_iff b).mp (h2 b hb), ?_⟩
          intro b hb ⟨k1, k2, _⟩
          rcases (verifyProofVerdict_next_iff b).mp (h2 b hb) with k | ⟨_, _, k⟩
          · exact k k1
          · exact k k2

/-- Witness of C2: with observer `A` refusing the connection and observer `B`
answering status 200, both calls return a nil error, and the theorem gives the
answer they come from. -/
theorem proof_success_only_from_first_ok_witness :
    ((refusedThenOk.GetProof [] [] 0).err = none ∧
      ∃ obs tr s0 pre a post,
        refusedThenOk.getObserversForAddress (bytesToString []) 0 = ⟨obs, none, tr, s0⟩ ∧
        refusedThenOk.getProofAnswers [] [] obs s0 = pre ++ a :: post ∧
        a.err = none ∧ a.respCode = StatusOK ∧ a.response.Error = "" ∧
        (refusedThenOk.GetProof [] [] 0).value = a.response.Data ∧
        (∀ b ∈ pre, b.err ≠ none ∨
          (b.err = none ∧ b.response.Error = "" ∧ b.respCode ≠ StatusOK)) ∧
        (∀ b ∈ pre, ¬(b.err = none ∧ b.respCode = StatusOK ∧ b.response.Error = ""))) ∧
    ((refusedThenOk.VerifyProof [] [] [] 0).err = none ∧
      ∃ obs tr s0 pre a post,
        refusedThenOk.getObserversForAddress (bytesToString []) 0 = ⟨obs, none, tr, s0⟩ ∧
        refusedThenOk.verifyProofAnswers [] [] [] obs s0 = pre ++ a :: post ∧
        a.err = none ∧ a.respCode = StatusOK ∧ a.response.Error = "" ∧
        (refusedThenOk.VerifyProof [] [] [] 0).value = a.response.Data ∧
        (∀ b ∈ pre, b.err ≠ none ∨
          (b.err = none ∧ b.response.Error = "" ∧ b.respCode ≠ StatusOK)) ∧
        (∀ b ∈ pre, ¬(b.err = none ∧ b.respCode = StatusOK ∧ b.response.Error = ""))) :=
  ⟨⟨rfl, (proof_success_only_from_first_ok refusedThenOk [] [] [] 0).1 rfl⟩,
   ⟨rfl, (proof_success_only_from_first_ok refusedThenOk [] [] [] 0).2 rfl⟩⟩

/-- C10: when every observer returns a transport error, `GetProof` and
`VerifyProof` fail with `ErrSendingRequest` and return no payload, after
calling each observer of the list once, in order; and so they do when every
observer answers with no transport error, an empty error field and a status
other than 200. -/
theorem proof_exhaustion_gives_ErrSendingRequest {σ V : Type} (pp : ProofProcessor σ V)
    (rootHash address : List Nat) (proof : List (List Nat)) (s : σ)
    (obs : List NodeData) (tr : List Event) (s0 : σ)
    (hobs : pp.getObserversForAddress (bytesToString address) s = ⟨obs, none, tr, s0⟩) :
    (((∀ b ∈ pp.getProofAnswers rootHash address obs s0, b.err ≠ none) ∨
        (∀ b ∈ pp.getProofAnswers rootHash address obs s0,
          b.err = none ∧ b.response.Error = "" ∧ b.respCode ≠ StatusOK)) →
      (pp.GetProof rootHash address s).value = none ∧
      (pp.GetProof rootHash address s).err = some .ErrSendingRequest ∧
      (pp.GetProof rootHash address s).trace =
        tr ++ getCalls (getProofEndpoint rootHash address) obs) ∧
    (((∀ b ∈ pp.verifyProofAnswers rootHash address proof obs s0, b.err ≠ none) ∨
        (∀ b ∈ pp.verifyProofAnswers rootHash address proof obs s0,
          b.err = none ∧ b.response.Error = "" ∧ b.respCode ≠ StatusOK)) →
      (pp.VerifyProof rootHash address proof s).value = false ∧
      (pp.VerifyProof rootHash address proof s).err = some .ErrSendingRequest ∧
      (pp.VerifyProof rootHash address proof s).trace = tr ++ postCalls "/proof/verify" obs) := by
  constructor
  · intro h
    apply GetProof_exhaust pp rootHash address s obs tr s0 hobs
    intro b hb
    rcases h with h | h
    · exact getProofVerdict_next b (Or.inl (h b hb))
    · exact getProofVerdict_next b (Or.inr (h b hb).2)
  · intro h
    apply VerifyProof_exhaust pp rootHash address proof s obs tr s0 hobs
    intro b hb
    rcases h with h | h
    · exact verifyProofVerdict_next b (Or.inl (h b hb))
    · exact verifyProofVerdict_next b (Or.inr (h b hb).2)

/-- Witness of C10: observers `A` and `B` both refuse the connection, and
observers `A` and `B` both answer a bare status 500. -/
theorem proof_exhaustion_gives_ErrSendingRequest_witness :
    ((bothRefused.GetProof [] [] 0).value = none ∧
      (bothRefused.GetProof [] [] 0).err = some .ErrSendingRequest ∧
      (bothRefused.GetProof [] [] 0).trace =
        routingTrace ++ getCalls (getProofEndpoint [] []) observersAB) ∧
    ((bothBare500.VerifyProof [] [] [] 0).value = false ∧
      (bothBare500.VerifyProof [] [] [] 0).err = some .ErrSendingRequest ∧
      (bothBare500.VerifyProof [] [] [] 0).trace =
        routingTrace ++ postCalls "/proof/verify" observersAB) :=
  ⟨(proof_exhaustion_gives_ErrSendingRequest bothRefused [] [] [] 0 observersAB routingTrace 0
      rfl).1 (Or.inl (by decide)),
   (proof_exhaustion_gives_ErrSendingRequest bothBare500 [] [] [] 0 observersAB routingTrace 0
      rfl).2 (Or.inr (by decide))⟩

/-! ## Failover in `ExecuteQuery` -/

/-- C3, as stated, fails: observer `A` returns a transport error while the call
reports status 500 (or status 0), observer `B` answers status 200 with a VM
output.  `ExecuteQuery` does not fail over to `B`: it returns the transport
error of `A` and no VM output after calling `A` only. -/
theorem executeQuery_transport_error_not_failed_over :
    refused500ThenOk.executeQueryAnswers sampleQuery observersAB 0 =
        [⟨500, some connectionRefused, ⟨⟨none⟩, ""⟩⟩, ⟨200, none, ⟨⟨some "out"⟩, ""⟩⟩] ∧
      (refused500ThenOk.ExecuteQuery sampleQuery 0).err = some connectionRefused ∧
      (refused500ThenOk.ExecuteQuery sampleQuery 0).value = none ∧
      (refused500ThenOk.ExecuteQuery sampleQuery 0).trace =
        routingTrace ++ [.CallPostRestEndPoint "A" SCQueryServicePath] ∧
      ¬((refused500ThenOk.ExecuteQuery sampleQuery 0).value = some "out" ∧
        (refused500ThenOk.ExecuteQuery sampleQuery 0).err = none) ∧
      (refused0ThenOk.ExecuteQuery sampleQuery 0).err = some connectionRefused ∧
      (refused0ThenOk.ExecuteQuery sampleQuery 0).value = none ∧
      (refused0ThenOk.ExecuteQuery sampleQuery 0).trace =
        routingTrace ++ [.CallPostRestEndPoint "A" SCQueryServicePath] := by
  refine ⟨rfl, rfl, rfl, rfl, by decide, rfl, rfl, rfl⟩

/-- C3, amended: in `ExecuteQuery`, a transport error that comes with status
404 or 408 causes failover to the next observer: when every observer before
some observer returned a transport error with status 404 or 408 and that
observer answers status 200, the call returns its VM output with no error; when
every observer returned a transport error with status 404 or 408, the call
fails with `ErrSendingRequest` after each observer has been called once.  A
transport error that comes with a status other than 200, 404 and 408 and an
empty error field ends the call at that observer, which returns that
transport error. -/
theorem executeQuery_transport_error_failover_on_404_408 {σ V : Type}
    (scp : SCQueryProcessor σ V) (query : SCQuery) (s : σ) (addressBytes : List Nat)
    (shardID : Nat) (obs : List NodeData) (s0 : σ)
    (hr : scp.Routes query s addressBytes shardID obs s0) :
    (∀ pre b post, scp.executeQueryAnswers query obs s0 = pre ++ b :: post →
      (∀ a ∈ pre, a.err ≠ none ∧
        (a.respCode = StatusNotFound ∨ a.respCode = StatusRequestTimeout)) →
      b.respCode = StatusOK →
      (scp.ExecuteQuery query s).value = b.response.Data.Data ∧
      (scp.ExecuteQuery query s).err = none ∧
      (scp.ExecuteQuery query s).trace =
        [.Decode query.ScAddress, .ComputeShardId addressBytes, .GetObservers shardID] ++
          postCalls SCQueryServicePath (obs.take (pre.length + 1))) ∧
    ((∀ a ∈ scp.executeQueryAnswers query obs s0, a.err ≠ none ∧
        (a.respCode = StatusNotFound ∨ a.respCode = StatusRequestTimeout)) →
      (scp.ExecuteQuery query s).value = none ∧
      (scp.ExecuteQuery query s).err = some .ErrSendingRequest ∧
      (scp.ExecuteQuery query s).trace =
        [.Decode query.ScAddress, .ComputeShardId addressBytes, .GetObservers shardID] ++
          postCalls SCQueryServicePath obs) ∧
    (∀ pre b post e, scp.executeQueryAnswers query obs s0 = pre ++ b :: post →
      (∀ a ∈ pre, a.err ≠ none ∧
        (a.respCode = StatusNotFound ∨ a.respCode = StatusRequestTimeout)) →
      b.err = some e → b.respCode ≠ StatusOK → b.respCode ≠ StatusNotFound →
      b.respCode ≠ StatusRequestTimeout → b.response.Error = "" →
      (scp.ExecuteQuery query s).value = none ∧
      (scp.ExecuteQuery query s).err = some e ∧
      (scp.ExecuteQuery query s).trace =
        [.Decode query.ScAddress, .ComputeShardId addressBytes, .GetObservers shardID] ++
          postCalls SCQueryServicePath (obs.take (pre.length + 1))) := by
  refine ⟨?_, ?_, ?_⟩
  · intro pre b post h hpre hb
    exact ExecuteQuery_stop scp query s addressBytes shardID obs s0 hr pre b post _ _ h
      (fun a ha => (executeQueryVerdict_next_iff a).mpr (hpre a ha).2)
      (executeQueryVerdict_ok b hb)
  · intro h
    exact ExecuteQuery_exhaust scp query s addressBytes shardID obs s0 hr
      (fun a ha => (executeQueryVerdict_next_iff a).mpr (h a ha).2)
  · intro pre b post e h hpre he h1 h2 h3 h4
    have := ExecuteQuery_stop scp query s addressBytes shardID obs s0 hr pre b post none b.err h
      (fun a ha => (executeQueryVerdict_next_iff a).mpr (hpre a ha).2)
      ((executeQueryVerdict_stop_iff b _ _).mpr
        (Or.inr (Or.inr ⟨h1, h2, h3, by simp [h4], rfl, rfl⟩)))
    rw [he] at this
    exact this

/-- Witness of C3, amended: observer `A` returns a transport error with status
404, observer `B` answers status 200; the call returns the VM output of `B`. -/
theorem executeQuery_transport_error_failover_on_404_408_witness :
    (refused404ThenOk.ExecuteQuery sampleQuery 0).value = some "out" ∧
      (refused404ThenOk.ExecuteQuery sampleQuery 0).err = none ∧
      (refused404ThenOk.ExecuteQuery sampleQuery 0).trace =
        routingTrace ++ postCalls SCQueryServicePath (observersAB.take 2) :=
  (executeQuery_transport_error_failover_on_404_408 refused404ThenOk sampleQuery 0 [] 0
    observersAB 0 ⟨0, 0, rfl, rfl, rfl⟩).1
    [⟨404, some connectionRefused, ⟨⟨none⟩, ""⟩⟩] ⟨200, none, ⟨⟨some "out"⟩, ""⟩⟩ [] rfl
    (by decide) rfl

/-- C4, as stated, fails: observer `A` answers status 200 with a VM output and
the error field `"execution failed"`.  `ExecuteQuery` returns that VM output
with a nil error. -/
theorem executeQuery_ok_status_wins_over_error_field :
    (okWithErrorField.executeQueryAnswers sampleQuery observersAB 0).head? =
        some ⟨200, none, ⟨⟨some "out"⟩, "execution failed"⟩⟩ ∧
      (okWithErrorField.ExecuteQuery sampleQuery 0).value = some "out" ∧
      (okWithErrorField.ExecuteQuery sampleQuery 0).err = none ∧
      (okWithErrorField.ExecuteQuery sampleQuery 0).trace =
        routingTrace ++ [.CallPostRestEndPoint "A" SCQueryServicePath] := by
  refine ⟨rfl, rfl, rfl, rfl⟩

/-- C4, amended: `ExecuteQuery` returns a VM output with a nil error only from
an observer answer that has status 200, after observers that all answered 404
or 408; the VM output is that of this answer, whatever its error field.  So an
answer whose error field is populated and whose status is not 200 never
produces a successful result. -/
theorem executeQuery_success_only_from_status_ok {σ V : Type} (scp : SCQueryProcessor σ V)
    (query : SCQuery) (s : σ) (v : V)
    (hv : (scp.ExecuteQuery query s).value = some v)
    (herr : (scp.ExecuteQuery query s).err = none) :
    ∃ addressBytes shardID obs s0 pre a post,
      scp.Routes query s addressBytes shardID obs s0 ∧
      scp.executeQueryAnswers query obs s0 = pre ++ a :: post ∧
      (∀ b ∈ pre, b.respCode = StatusNotFound ∨ b.respCode = StatusRequestTimeout) ∧
      a.respCode = StatusOK ∧ a.response.Data.Data = some v := by
  obtain ⟨addressBytes, shardID, obs, s0, hr⟩ := ExecuteQuery_routes_of_value scp query s v hv
  rcases failover_cases (fun a => scp.proc.CallPostRestEndPointVmValue a SCQueryServicePath
      (scp.createRequestFromQuery query)) executeQueryVerdict obs s0 with
    hall | ⟨pre, a, post, w, e, h1, h2, h3⟩
  · have := (ExecuteQuery_exhaust scp query s addressBytes shardID obs s0 hr hall).2.1
    rw [this] at herr
    cases herr
  · obtain ⟨g1, g2, _⟩ := ExecuteQuery_stop scp query s addressBytes shardID obs s0 hr
      pre a post w e h1 h2 h3
    rw [g1] at hv
    rcases (executeQueryVerdict_stop_iff a w e).mp h3 with
      ⟨k1, k2, _⟩ | ⟨_, _, _, _, k2, _⟩ | ⟨_, _, _, _, k2, _⟩
    · exact ⟨addressBytes, shardID, obs, s0, pre, a, post, hr, h1,
        fun b hb => (executeQueryVerdict_next_iff b).mp (h2 b hb), k1, by rw [← k2, hv]⟩
    · rw [k2] at hv; cases hv
    · rw [k2] at hv; cases hv

/-- Witness of C4, amended: the successful call to observers `A` (404, with a
transport error) and `B` (200). -/
theorem executeQuery_success_only_from_status_ok_witness :
    ∃ addressBytes shardID obs s0 pre a post,
      refused404ThenOk.Routes sampleQuery 0 addressBytes shardID obs s0 ∧
      refused404ThenOk.executeQueryAnswers sampleQuery obs s0 = pre ++ a :: post ∧
      (∀ b ∈ pre, b.respCode = StatusNotFound ∨ b.respCode = StatusRequestTimeout) ∧
      a.respCode = StatusOK ∧ a.response.Data.Data = some "out" :=
  executeQuery_success_only_from_status_ok refused404ThenOk sampleQuery 0 "out" rfl rfl

/-- C5 fails on the code: observer `A` answers status 500 with an empty error
field and no transport error.  `ExecuteQuery` stops at `A` (observer `B`, which
would answer 200, is not called) but the error it returns is nil, next to a nil
VM output. -/
theorem executeQuery_bare_500_returns_nil_error :
    bare500ThenOk.executeQueryAnswers sampleQuery observersAB 0 =
        [⟨500, none, ⟨⟨none⟩, ""⟩⟩, ⟨200, none, ⟨⟨some "out"⟩, ""⟩⟩] ∧
      (bare500ThenOk.ExecuteQuery sampleQuery 0).value = none ∧
      (bare500ThenOk.ExecuteQuery sampleQuery 0).err = none ∧
      (bare500ThenOk.ExecuteQuery sampleQuery 0).trace =
        routingTrace ++ [.CallPostRestEndPoint "A" SCQueryServicePath] := by
  refine ⟨rfl, rfl, rfl, rfl⟩

/-- C6: in `GetProof`, `VerifyProof` and `ExecuteQuery`, on every observer
list and whatever the observers answer, the REST calls made are calls to the
first `k` observers of the list, one call each, in list order, for some `k` that
is at most the length of the list.  Either every observer was called, every
answer made the loop go on and the call fails with `ErrSendingRequest`, or the
last observer called is the one whose answer made the loop return what the
call returns: no observer is called after it. -/
theorem contacted_observers_form_initial_segment {σ V : Type} (pp : ProofProcessor σ V)
    (scp : SCQueryProcessor σ V) (rootHash address : List Nat) (proof : List (List Nat))
    (query : SCQuery) (s : σ) (obs : List NodeData) (tr : List Event) (s0 : σ)
    (addressBytes : List Nat) (shardID : Nat) (qobs : List NodeData) (q0 : σ)
    (hobs : pp.getObserversForAddress (bytesToString address) s = ⟨obs, none, tr, s0⟩)
    (hr : scp.Routes query s addressBytes shardID qobs q0) :
    (∃ k, k ≤ obs.length ∧
      (pp.GetProof rootHash address s).trace =
        tr ++ getCalls (getProofEndpoint rootHash address) (obs.take k) ∧
      ((k = obs.length ∧ (pp.GetProof rootHash address s).value = none ∧
          (pp.GetProof rootHash address s).err = some .ErrSendingRequest ∧
          ∀ b ∈ pp.getProofAnswers rootHash address obs s0, getProofVerdict b = .next) ∨
        (0 < k ∧ ∃ a, (pp.getProofAnswers rootHash address obs s0)[k - 1]? = some a ∧
          getProofVerdict a = .stop (pp.GetProof rootHash address s).value
            (pp.GetProof rootHash address s).err))) ∧
    (∃ k, k ≤ obs.length ∧
      (pp.VerifyProof rootHash address proof s).trace =
        tr ++ postCalls "/proof/verify" (obs.take k) ∧
      ((k = obs.length ∧ (pp.VerifyProof rootHash address proof s).value = false ∧
          (pp.VerifyProof rootHash address proof s).err = some .ErrSendingRequest ∧
          ∀ b ∈ pp.verifyProofAnswers rootHash address proof obs s0,
            verifyProofVerdict b = .next) ∨
        (0 < k ∧ ∃ a, (pp.verifyProofAnswers rootHash address proof obs s0)[k - 1]? = some a ∧
          verifyProofVerdict a = .stop (pp.VerifyProof rootHash address proof s).value
            (pp.VerifyProof rootHash address proof s).err))) ∧
    (∃ k, k ≤ qobs.length ∧
      (scp.ExecuteQuery query s).trace =
        [.Decode query.ScAddress, .ComputeShardId addressBytes, .GetObservers shardID] ++
          postCalls SCQueryServicePath (qobs.take k) ∧
      ((k = qobs.length ∧ (scp.ExecuteQuery query s).value = none ∧
          (scp.ExecuteQuery query s).err = some .ErrSendingRequest ∧
          ∀ b ∈ scp.executeQueryAnswers query qobs q0, executeQueryVerdict b = .next) ∨
        (0 < k ∧ ∃ a, (scp.executeQueryAnswers query qobs q0)[k - 1]? = some a ∧
          executeQueryVerdict a = .stop (scp.ExecuteQuery query s).value
            (scp.ExecuteQuery query s).err))) := by
  refine ⟨?_, ?_, ?_⟩
  · rw [GetProof_eq_failover pp rootHash address s obs tr s0 hobs]
    obtain ⟨k, hk, ht, hc⟩ := failover_contacts_initial_segment
      (fun a => pp.proc.CallGetRestEndPoint a (getProofEndpoint rootHash address))
      (fun a => Event.CallGetRestEndPoint a (getProofEndpoint rootHash address))
      getProofVerdict none obs s0
    exact ⟨k, hk, by simp only [ht, getCalls], hc⟩
  · rw [VerifyProof_eq_failover pp rootHash address proof s obs tr s0 hobs]
    obtain ⟨k, hk, ht, hc⟩ := failover_contacts_initial_segment
      (fun a => pp.proc.CallPostRestEndPointVerifyProof a "/proof/verify"
        ⟨rootHash, address, proof⟩)
      (fun a => Event.CallPostRestEndPoint a "/proof/verify")
      verifyProofVerdict false obs s0
    exact ⟨k, hk, by simp only [ht, postCalls], hc⟩
  · rw [ExecuteQuery_eq_failover scp query s addressBytes shardID qobs q0 hr]
    obtain ⟨k, hk, ht, hc⟩ := failover_contacts_initial_segment
      (fun a => scp.proc.CallPostRestEndPointVmValue a SCQueryServicePath
        (scp.createRequestFromQuery query))
      (fun a => Event.CallPostRestEndPoint a SCQueryServicePath)
      executeQueryVerdict none qobs q0
    exact ⟨k, hk, by simp only [ht, postCalls], hc⟩

/-- Witness of C6: the proof processor whose observer `A` answers with an
error field (the calls stop at `A`), and the query processor whose observer
`A` answers 404 and observer `B` 200 (the call stops at `B`). -/
theorem contacted_observers_form_initial_segment_witness :
    (∃ k, k ≤ observersAB.length ∧
      (explicitErrorThenOk.GetProof [] [] 0).trace =
        routingTrace ++ getCalls (getProofEndpoint [] []) (observersAB.take k) ∧
      ((k = observersAB.length ∧ (explicitErrorThenOk.GetProof [] [] 0).value = none ∧
          (explicitErrorThenOk.GetProof [] [] 0).err = some .ErrSendingRequest ∧
          ∀ b ∈ explicitErrorThenOk.getProofAnswers [] [] observersAB 0,
            getProofVerdict b = .next) ∨
        (0 < k ∧ ∃ a, (explicitErrorThenOk.getProofAnswers [] [] observersAB 0)[k - 1]? =
            some a ∧
          getProofVerdict a = .stop (explicitErrorThenOk.GetProof [] [] 0).value
            (explicitErrorThenOk.GetProof [] [] 0).err))) ∧
    (∃ k, k ≤ observersAB.length ∧
      (refused404ThenOk.ExecuteQuery sampleQuery 0).trace =
        routingTrace ++ postCalls SCQueryServicePath (observersAB.take k) ∧
      ((k = observersAB.length ∧ (refused404ThenOk.ExecuteQuery sampleQuery 0).value = none ∧
          (refused404ThenOk.ExecuteQuery sampleQuery 0).err = some .ErrSendingRequest ∧
          ∀ b ∈ refused404ThenOk.executeQueryAnswers sampleQuery observersAB 0,
            executeQueryVerdict b = .next) ∨
        (0 < k ∧ ∃ a, (refused404ThenOk.executeQueryAnswers sampleQuery observersAB 0)[k - 1]? =
            some a ∧
          executeQueryVerdict a = .stop (refused404ThenOk.ExecuteQuery sampleQuery 0).value
            (refused404ThenOk.ExecuteQuery sampleQuery 0).err))) :=
  ⟨(contacted_observers_form_initial_segment explicitErrorThenOk refused404ThenOk [] [] [] sampleQuery 0
      observersAB routingTrace 0 [] 0 observersAB 0 rfl ⟨0, 0, rfl, rfl, rfl⟩).1,
   (contacted_observers_form_initial_segment explicitErrorThenOk refused404ThenOk [] [] [] sampleQuery 0
      observersAB routingTrace 0 [] 0 observersAB 0 rfl ⟨0, 0, rfl, rfl, rfl⟩).2.2⟩

/-- C7: in `ExecuteQuery`, an observer that answers status 404 or 408 is
skipped, whatever transport error or error field comes with the answer: when
every observer before some observer answered 404 or 408, that observer is
called, after them and in list order.  When every observer answers 404 or 408
the call fails with `ErrSendingRequest` and no VM output after calling each
observer of the list once. -/
theorem executeQuery_skips_observers_that_are_down {σ V : Type} (scp : SCQueryProcessor σ V)
    (query : SCQuery) (s : σ) (addressBytes : List Nat) (shardID : Nat) (obs : List NodeData)
    (s0 : σ) (hr : scp.Routes query s addressBytes shardID obs s0) :
    (∀ pre a post, scp.executeQueryAnswers query obs s0 = pre ++ a :: post →
      (∀ b ∈ pre, b.respCode = StatusNotFound ∨ b.respCode = StatusRequestTimeout) →
      [.Decode query.ScAddress, .ComputeShardId addressBytes, .GetObservers shardID] ++
          postCalls SCQueryServicePath (obs.take (pre.length + 1)) <+:
        (scp.ExecuteQuery query s).trace) ∧
    ((∀ b ∈ scp.executeQueryAnswers query obs s0,
        b.respCode = StatusNotFound ∨ b.respCode = StatusRequestTimeout) →
      (scp.ExecuteQuery query s).value = none ∧
      (scp.ExecuteQuery query s).err = some .ErrSendingRequest ∧
      (scp.ExecuteQuery query s).trace =
        [.Decode query.ScAddress, .ComputeShardId addressBytes, .GetObservers shardID] ++
          postCalls SCQueryServicePath obs) := by
  constructor
  · intro pre a post h hpre
    exact ExecuteQuery_trace_begins scp query s addressBytes shardID obs s0 hr pre a post h
      (fun b hb => (executeQueryVerdict_next_iff b).mpr (hpre b hb))
  · intro h
    exact ExecuteQuery_exhaust scp query s addressBytes shardID obs s0 hr
      (fun b hb => (executeQueryVerdict_next_iff b).mpr (h b hb))

/-- Witness of C7: observers `A` and `B` both answer 404, `A` with a transport
error and `B` with an error field. -/
theorem executeQuery_skips_observers_that_are_down_witness :
    (routingTrace ++ postCalls SCQueryServicePath (observersAB.take 2) <+:
      (bothDown.ExecuteQuery sampleQuery 0).trace) ∧
    ((bothDown.ExecuteQuery sampleQuery 0).value = none ∧
      (bothDown.ExecuteQuery sampleQuery 0).err = some .ErrSendingRequest ∧
      (bothDown.ExecuteQuery sampleQuery 0).trace =
        routingTrace ++ postCalls SCQueryServicePath observersAB) :=
  ⟨(executeQuery_skips_observers_that_are_down bothDown sampleQuery 0 [] 0 observersAB 0
      ⟨0, 0, rfl, rfl, rfl⟩).1 [⟨404, some connectionRefused, ⟨⟨none⟩, ""⟩⟩]
      ⟨404, none, ⟨⟨none⟩, "not found"⟩⟩ [] rfl (by decide),
   (executeQuery_skips_observers_that_are_down bothDown sampleQuery 0 [] 0 observersAB 0
      ⟨0, 0, rfl, rfl, rfl⟩).2 (by decide)⟩

/-- C8: in `ExecuteQuery`, when an observer answers status 200 and every
observer before it answered 404 or 408, the call returns the VM output of that
answer (`response.Data.Data`) with a nil error, and the REST calls made are
those to the observers up to that one: no later observer is called. -/
theorem executeQuery_returns_first_ok_output {σ V : Type} (scp : SCQueryProcessor σ V)
    (query : SCQuery) (s : σ) (addressBytes : List Nat) (shardID : Nat) (obs : List NodeData)
    (s0 : σ) (hr : scp.Routes query s addressBytes shardID obs s0)
    (pre : List (Answer (ResponseVmValue V))) (a : Answer (ResponseVmValue V))
    (post : List (Answer (ResponseVmValue V)))
    (h : scp.executeQueryAnswers query obs s0 = pre ++ a :: post)
    (hpre : ∀ b ∈ pre, b.respCode = StatusNotFound ∨ b.respCode = StatusRequestTimeout)
    (ha : a.respCode = StatusOK) :
    (scp.ExecuteQuery query s).value = a.response.Data.Data ∧
      (scp.ExecuteQuery query s).err = none ∧
      (scp.ExecuteQuery query s).trace =
        [.Decode query.ScAddress, .ComputeShardId addressBytes, .GetObservers shardID] ++
          postCalls SCQueryServicePath (obs.take (pre.length + 1)) :=
  ExecuteQuery_stop scp query s addressBytes shardID obs s0 hr pre a post _ _ h
    (fun b hb => (executeQueryVerdict_next_iff b).mpr (hpre b hb))
    (executeQueryVerdict_ok a ha)

/-- Witness of C8: observer `A` answers status 200 (with an error field, which
does not matter); observer `B` is not called. -/
theorem executeQuery_returns_first_ok_output_witness :
    (okWithErrorField.ExecuteQuery sampleQuery 0).value = some "out" ∧
      (okWithErrorField.ExecuteQuery sampleQuery 0).err = none ∧
      (okWithErrorField.ExecuteQuery sampleQuery 0).trace =
        routingTrace ++ postCalls SCQueryServicePath (observersAB.take 1) :=
  executeQuery_returns_first_ok_output okWithErrorField sampleQuery 0 [] 0 observersAB 0
    ⟨0, 0, rfl, rfl, rfl⟩ [] ⟨200, none, ⟨⟨some "out"⟩, "execution failed"⟩⟩
    [⟨0, some connectionRefused, ⟨⟨none⟩, ""⟩⟩] rfl (by decide) rfl

/-- C9 fails on the code: observer `A` answers status 500 with the error field
`"gas 100%"`.  `ExecuteQuery` stops at `A`, but the error field goes through
`fmt.Errorf` as a format string: the message of the error returned is
`"gas 100%!(NOVERB)"`, not the error field. -/
theorem executeQuery_error_field_is_formatted :
    (percentInErrorField.executeQueryAnswers sampleQuery observersAB 0).head? =
        some ⟨500, none, ⟨⟨none⟩, "gas 100%"⟩⟩ ∧
      (percentInErrorField.ExecuteQuery sampleQuery 0).value = none ∧
      (percentInErrorField.ExecuteQuery sampleQuery 0).err =
        some (.text "gas 100%!(NOVERB)") ∧
      (percentInErrorField.ExecuteQuery sampleQuery 0).err ≠ some (.text "gas 100%") ∧
      (percentInErrorField.ExecuteQuery sampleQuery 0).trace =
        routingTrace ++ [.CallPostRestEndPoint "A" SCQueryServicePath] := by
  refine ⟨rfl, rfl, rfl, by decide, rfl⟩

/-! ## Routing: the directory calls before the loop -/

/-- C11, as stated, fails: the directory returns an empty observer list with no
error.  `GetProof`, `VerifyProof` and `ExecuteQuery` make no REST call, but the
error they return is `ErrSendingRequest`, the one of an exhausted list, and not
an error about missing observers. -/
theorem empty_observer_list_gives_ErrSendingRequest :
    noObserversProofProcessor.getObserversForAddress (bytesToString []) 0 =
        ⟨[], none, routingTrace, 0⟩ ∧
      (noObserversProofProcessor.GetProof [] [] 0).err = some .ErrSendingRequest ∧
      (noObserversProofProcessor.GetProof [] [] 0).err ≠ some .NoObserversAvailable ∧
      restCalls (noObserversProofProcessor.GetProof [] [] 0).trace = [] ∧
      (noObserversProofProcessor.VerifyProof [] [] [] 0).err = some .ErrSendingRequest ∧
      (noObserversProofProcessor.VerifyProof [] [] [] 0).err ≠ some .NoObserversAvailable ∧
      restCalls (noObserversProofProcessor.VerifyProof [] [] [] 0).trace = [] ∧
      noObserversSCQueryProcessor.Routes sampleQuery 0 [] 0 [] 0 ∧
      (noObserversSCQueryProcessor.ExecuteQuery sampleQuery 0).err = some .ErrSendingRequest ∧
      (noObserversSCQueryProcessor.ExecuteQuery sampleQuery 0).err ≠
        some .NoObserversAvailable ∧
      restCalls (noObserversSCQueryProcessor.ExecuteQuery sampleQuery 0).trace = [] := by
  refine ⟨rfl, rfl, by decide, rfl, rfl, by decide, rfl, ⟨0, 0, rfl, rfl, rfl⟩, rfl, by decide,
    rfl⟩

/-- C11, amended: when the directory returns an empty observer list with no
lookup error, `GetProof`, `VerifyProof` and `ExecuteQuery` make no REST call
(their trace is that of the directory calls) and fail with `ErrSendingRequest`,
returning no payload. -/
theorem empty_observer_list_no_call_ErrSendingRequest {σ V : Type} (pp : ProofProcessor σ V)
    (scp : SCQueryProcessor σ V) (rootHash address : List Nat) (proof : List (List Nat))
    (query : SCQuery) (s : σ) (tr : List Event) (s0 : σ)
    (addressBytes : List Nat) (shardID : Nat) (q0 : σ)
    (hobs : pp.getObserversForAddress (bytesToString address) s = ⟨[], none, tr, s0⟩)
    (hr : scp.Routes query s addressBytes shardID [] q0) :
    ((pp.GetProof rootHash address s).value = none ∧
      (pp.GetProof rootHash address s).err = some .ErrSendingRequest ∧
      (pp.GetProof rootHash address s).trace = tr ∧
      restCalls (pp.GetProof rootHash address s).trace = []) ∧
    ((pp.VerifyProof rootHash address proof s).value = false ∧
      (pp.VerifyProof rootHash address proof s).err = some .ErrSendingRequest ∧
      (pp.VerifyProof rootHash address proof s).trace = tr ∧
      restCalls (pp.VerifyProof rootHash address proof s).trace = []) ∧
    ((scp.ExecuteQuery query s).value = none ∧
      (scp.ExecuteQuery query s).err = some .ErrSendingRequest ∧
      (scp.ExecuteQuery query s).trace =
        [.Decode query.ScAddress, .ComputeShardId addressBytes, .GetObservers shardID] ∧
      restCalls (scp.ExecuteQuery query s).trace = []) := by
  have htr : restCalls tr = [] := by
    have h := congrArg Ret.trace hobs
    simp only [ProofProcessor.getObserversForAddress] at h
    split at h
    · subst h; rfl
    · split at h
      · subst h; rfl
      · split at h <;> (subst h; rfl)
  obtain ⟨s1, s2, h1, h2, h3⟩ := hr
  refine ⟨?_, ?_, ?_⟩
  · simp [ProofProcessor.GetProof, hobs, ProofProcessor.getProofLoop, htr]
  · simp [ProofProcessor.VerifyProof, hobs, ProofProcessor.verifyProofLoop, htr]
  · simp [SCQueryProcessor.ExecuteQuery, h1, h2, h3, SCQueryProcessor.executeQueryLoop,
      restCalls, Event.isRestCall]

/-- Witness of C11, amended: the processors whose directory has no observer. -/
theorem empty_observer_list_no_call_ErrSendingRequest_witness :
    ((noObserversProofProcessor.GetProof [] [] 0).value = none ∧
      (noObserversProofProcessor.GetProof [] [] 0).err = some .ErrSendingRequest ∧
      (noObserversProofProcessor.GetProof [] [] 0).trace = routingTrace ∧
      restCalls (noObserversProofProcessor.GetProof [] [] 0).trace = []) ∧
    ((noObserversProofProcessor.VerifyProof [] [] [] 0).value = false ∧
      (noObserversProofProcessor.VerifyProof [] [] [] 0).err = some .ErrSendingRequest ∧
      (noObserversProofProcessor.VerifyProof [] [] [] 0).trace = routingTrace ∧
      restCalls (noObserversProofProcessor.VerifyProof [] [] [] 0).trace = []) ∧
    ((noObserversSCQueryProcessor.ExecuteQuery sampleQuery 0).value = none ∧
      (noObserversSCQueryProcessor.ExecuteQuery sampleQuery 0).err = some .ErrSendingRequest ∧
      (noObserversSCQueryProcessor.ExecuteQuery sampleQuery 0).trace =
        [.Decode sampleQuery.ScAddress, .ComputeShardId [], .GetObservers 0] ∧
      restCalls (noObserversSCQueryProcessor.ExecuteQuery sampleQuery 0).trace = []) :=
  empty_observer_list_no_call_ErrSendingRequest noObserversProofProcessor
    noObserversSCQueryProcessor [] [] [] sampleQuery 0 routingTrace 0 [] 0 0 rfl
    ⟨0, 0, rfl, rfl, rfl⟩

/-- C12: for `GetProof`, `VerifyProof` and `ExecuteQuery`, when decoding the
address fails, or `ComputeShardId` fails, or `GetObservers` fails, the call
returns the error of the failing collaborator, unchanged, and no payload; the
calls it has made are the directory calls up to the failing one, so no REST
call is made, and after a decode failure no directory call either. -/
theorem routing_errors_are_returned_unchanged {σ V : Type} (pp : ProofProcessor σ V)
    (scp : SCQueryProcessor σ V) (rootHash address : List Nat) (proof : List (List Nat))
    (query : SCQuery) (s : σ) :
    -- decoding fails
    (∀ e s1, pp.pubKeyConverter.Decode (bytesToString address) s = (.error e, s1) →
      pp.GetProof rootHash address s = ⟨none, some e, [.Decode (bytesToString address)], s1⟩ ∧
      pp.VerifyProof rootHash address proof s =
        ⟨false, some e, [.Decode (bytesToString address)], s1⟩) ∧
    (∀ e s1, scp.pubKeyConverter.Decode query.ScAddress s = (.error e, s1) →
      scp.ExecuteQuery query s = ⟨none, some e, [.Decode query.ScAddress], s1⟩) ∧
    -- `ComputeShardId` fails
    (∀ addressBytes e s1 s2,
      pp.pubKeyConverter.Decode (bytesToString address) s = (.ok addressBytes, s1) →
      pp.proc.ComputeShardId addressBytes s1 = (.error e, s2) →
      pp.GetProof rootHash address s =
        ⟨none, some e, [.Decode (bytesToString address), .ComputeShardId addressBytes], s2⟩ ∧
      pp.VerifyProof rootHash address proof s =
        ⟨false, some e, [.Decode (bytesToString address), .ComputeShardId addressBytes], s2⟩) ∧
    (∀ addressBytes e s1 s2,
      scp.pubKeyConverter.Decode query.ScAddress s = (.ok addressBytes, s1) →
      scp.proc.ComputeShardId addressBytes s1 = (.error e, s2) →
      scp.ExecuteQuery query s =
        ⟨none, some e, [.Decode query.ScAddress, .ComputeShardId addressBytes], s2⟩) ∧
    -- `GetObservers` fails
    (∀ addressBytes shardID e s1 s2 s3,
      pp.pubKeyConverter.Decode (bytesToString address) s = (.ok addressBytes, s1) →
      pp.proc.ComputeShardId addressBytes s1 = (.ok shardID, s2) →
      pp.proc.GetObservers shardID s2 = (.error e, s3) →
      pp.GetProof rootHash address s =
        ⟨none, some e, [.Decode (bytesToString address), .ComputeShardId addressBytes,
          .GetObservers shardID], s3⟩ ∧
      pp.VerifyProof rootHash address proof s =
        ⟨false, some e, [.Decode (bytesToString address), .ComputeShardId addressBytes,
          .GetObservers shardID], s3⟩) ∧
    (∀ addressBytes shardID e s1 s2 s3,
      scp.pubKeyConverter.Decode query.ScAddress s = (.ok addressBytes, s1) →
      scp.proc.ComputeShardId addressBytes s1 = (.ok shardID, s2) →
      scp.proc.GetObservers shardID s2 = (.error e, s3) →
      scp.ExecuteQuery query s =
        ⟨none, some e, [.Decode query.ScAddress, .ComputeShardId addressBytes,
          .GetObservers shardID], s3⟩) := by
  refine ⟨?_, ?_, ?_, ?_, ?_, ?_⟩
  · intro e s1 h1
    simp [ProofProcessor.GetProof, ProofProcessor.VerifyProof,
      ProofProcessor.getObserversForAddress, h1]
  · intro e s1 h1
    simp [SCQueryProcessor.ExecuteQuery, h1]
  · intro addressBytes e s1 s2 h1 h2
    simp [ProofProcessor.GetProof, ProofProcessor.VerifyProof,
      ProofProcessor.getObserversForAddress, h1, h2]
  · intro addressBytes e s1 s2 h1 h2
    simp [SCQueryProcessor.ExecuteQuery, h1, h2]
  · intro addressBytes shardID e s1 s2 s3 h1 h2 h3
    simp [ProofProcessor.GetProof, ProofProcessor.VerifyProof,
      ProofProcessor.getObserversForAddress, h1, h2, h3]
  · intro addressBytes shardID e s1 s2 s3 h1 h2 h3
    simp [SCQueryProcessor.ExecuteQuery, h1, h2, h3]

/-- Witness of C12: a converter that rejects the address in front of
`GetProof`, a directory whose `ComputeShardId` fails in front of
`VerifyProof`, and one whose `GetObservers` fails in front of
`ExecuteQuery`. -/
theorem routing_errors_are_returned_unchanged_witness :
    (ProofProcessor.GetProof ⟨scriptedProcessor observersAB [] [] [], rejectingConverter⟩
        [] [] 0 = ⟨none, some (.text "invalid byte"), [.Decode ""], 0⟩) ∧
      (ProofProcessor.VerifyProof ⟨noShardProcessor, bytesConverter⟩ [] [] [] 0 =
        ⟨false, some (.text "shard lookup failed"), [.Decode "", .ComputeShardId []], 0⟩) ∧
      (SCQueryProcessor.ExecuteQuery ⟨noDirectoryProcessor, bytesConverter⟩ sampleQuery 0 =
        ⟨none, some (.text "expected error"),
          [.Decode "", .ComputeShardId [], .GetObservers 0], 0⟩) :=
  ⟨((routing_errors_are_returned_unchanged
      ⟨scriptedProcessor observersAB [] [] [], rejectingConverter⟩
      ⟨noDirectoryProcessor, bytesConverter⟩ [] [] [] sampleQuery 0).1
      (.text "invalid byte") 0 rfl).1,
   ((routing_errors_are_returned_unchanged ⟨noShardProcessor, bytesConverter⟩
      ⟨noDirectoryProcessor, bytesConverter⟩ [] [] [] sampleQuery 0).2.2.1
      [] (.text "shard lookup failed") 0 0 rfl rfl).2,
   (routing_errors_are_returned_unchanged ⟨noShardProcessor, bytesConverter⟩
      ⟨noDirectoryProcessor, bytesConverter⟩ [] [] [] sampleQuery 0).2.2.2.2.2
      [] 0 (.text "expected error") 0 0 0 rfl rfl rfl⟩

/-! ## The request of a query -/

theorem fromHexChar_hextable : ∀ n, n < 16 → fromHexChar (hextable.getD n '0') = some n := by
  decide

theorem hextable_getD_mem : ∀ n, n < 16 → hextable.getD n '0' ∈ hextable := by
  decide

theorem hexEncodeToString_toList (src : List Nat) :
    (hexEncodeToString src).toList =
      src.flatMap fun v => [hextable.getD ((v % 256) / 16) '0', hextable.getD (v % 16) '0'] :=
  rfl

theorem hexDecode_cons_cons (p q : Char) (rest : List Char) (a b : Nat) (r : List Nat)
    (hp : fromHexChar p = some a) (hq : fromHexChar q = some b) (hr : hexDecode rest = some r) :
    hexDecode (p :: q :: rest) = some ((a * 16 + b) :: r) := by
  simp only [hexDecode, hp, hq, hr]

theorem hexDecode_hexEncode (src : List Nat) :
    hexDecodeString (hexEncodeToString src) = some (src.map fun v => v % 256) := by
  unfold hexDecodeString
  rw [hexEncodeToString_toList]
  induction src with
  | nil => rfl
  | cons v rest ih =>
    have h1 : (v % 256) / 16 < 16 := by omega
    have h2 : v % 16 < 16 := by omega
    have h3 : (v % 256) / 16 * 16 + v % 16 = v % 256 := by omega
    rw [List.flatMap_cons, List.map_cons]
    have := hexDecode_cons_cons _ _ _ _ _ _ (fromHexChar_hextable _ h1)
      (fromHexChar_hextable _ h2) ih
    rw [h3] at this
    exact this

theorem hexEncodeToString_length (src : List Nat) :
    (hexEncodeToString src).length = 2 * src.length := by
  rw [String.length, ← String.toList, hexEncodeToString_toList]
  induction src with
  | nil => rfl
  | cons v rest ih => simp only [List.flatMap_cons, List.length_append, List.length_cons,
      List.length_nil, ih]; omega

theorem hexEncodeToString_lowercase (src : List Nat) :
    ∀ c ∈ (hexEncodeToString src).toList, c ∈ hextable := by
  rw [hexEncodeToString_toList]
  intro c hc
  simp only [List.mem_flatMap, List.mem_cons, List.mem_singleton, List.not_mem_nil, or_false]
    at hc
  obtain ⟨v, _, rfl | rfl⟩ := hc
  · exact hextable_getD_mem _ (by omega)
  · exact hextable_getD_mem _ (by omega)

/-- C18: `createRequestFromQuery` returns a request whose `Address` and
`FuncName` are the `ScAddress` and `FuncName` of the query and whose `Args` has
the length of `Arguments`; at every index, `Args[i]` is the hexadecimal
encoding of `Arguments[i]`: two characters of `0123456789abcdef` for each
byte, which `hex.DecodeString` turns back into `Arguments[i]`; an empty
argument gives the empty string. -/
theorem createRequestFromQuery_hex_encodes_arguments {σ V : Type}
    (scp : SCQueryProcessor σ V) (query : SCQuery)
    (hbytes : ∀ argument ∈ query.Arguments, ∀ b ∈ argument, b < 256) :
    (scp.createRequestFromQuery query).Address = query.ScAddress ∧
    (scp.createRequestFromQuery query).FuncName = query.FuncName ∧
    (scp.createRequestFromQuery query).Args.length = query.Arguments.length ∧
    (∀ i : Nat, (scp.createRequestFromQuery query).Args[i]? =
      (query.Arguments[i]?).map hexEncodeToString) ∧
    (∀ (i : Nat) (argument : List Nat), query.Arguments[i]? = some argument →
      ∃ arg, (scp.createRequestFromQuery query).Args[i]? = some arg ∧
        arg.length = 2 * argument.length ∧
        (∀ c ∈ arg.toList, c ∈ "0123456789abcdef".toList) ∧
        hexDecodeString arg = some argument ∧
        (argument = [] → arg = "")) := by
  refine ⟨rfl, rfl, ?_, ?_, ?_⟩
  · simp [SCQueryProcessor.createRequestFromQuery]
  · intro i
    simp [SCQueryProcessor.createRequestFromQuery]
  · intro i argument hi
    refine ⟨hexEncodeToString argument, ?_, hexEncodeToString_length argument,
      hexEncodeToString_lowercase argument, ?_, ?_⟩
    · simp [SCQueryProcessor.createRequestFromQuery, hi]
    · rw [hexDecode_hexEncode]
      congr 1
      have hmem : argument ∈ query.Arguments := List.getElem?_mem hi
      have : ∀ b ∈ argument, b % 256 = b := fun b hb => Nat.mod_eq_of_lt (hbytes argument hmem b hb)
      exact (List.map_congr_left this).trans (List.map_id _)
    · rintro rfl
      rfl

/-- Witness of C18: a query with the arguments `[0, 255, 16, 171]` and `[]`. -/
theorem createRequestFromQuery_hex_encodes_arguments_witness :
    (refused404ThenOk.createRequestFromQuery ⟨"erd1", "get", [[0, 255, 16, 171], []]⟩).Args =
        ["00ff10ab", ""] ∧
      ∃ arg, (refused404ThenOk.createRequestFromQuery
          ⟨"erd1", "get", [[0, 255, 16, 171], []]⟩).Args[0]? = some arg ∧
        arg.length = 2 * [0, 255, 16, 171].length ∧
        (∀ c ∈ arg.toList, c ∈ "0123456789abcdef".toList) ∧
        hexDecodeString arg = some [0, 255, 16, 171] ∧
        (([0, 255, 16, 171] : List Nat) = [] → arg = "") :=
  ⟨by decide,
   (createRequestFromQuery_hex_encodes_arguments refused404ThenOk
      ⟨"erd1", "get", [[0, 255, 16, 171], []]⟩ (by decide)).2.2.2.2 0 [0, 255, 16, 171] rfl⟩

/-! ## The constructors -/

/-- C19: `NewProofProcessor`, `NewSCQueryProcessor` and `NewTransactionProcessor`
return a nil processor with `ErrNilCoreProcessor` when the core processor is
nil (whatever the converter is), a nil processor with `ErrNilPubKeyConverter`
when the core processor is not nil and the converter is, and otherwise a
processor that is not nil, made of the two arguments, with a nil error. -/
theorem constructors_check_nil_arguments {σ V : Type} (proc : Processor σ V)
    (txProc : TxCoreProcessor σ V) (pubKeyConverter : PubkeyConverter σ)
    (anyConverter : Option (PubkeyConverter σ)) :
    (NewProofProcessor (none : Option (Processor σ V)) anyConverter =
        (none, some .ErrNilCoreProcessor) ∧
      NewProofProcessor (some proc) none = (none, some .ErrNilPubKeyConverter) ∧
      NewProofProcessor (some proc) (some pubKeyConverter) =
        (some ⟨proc, pubKeyConverter⟩, none)) ∧
    (NewSCQueryProcessor (none : Option (Processor σ V)) anyConverter =
        (none, some .ErrNilCoreProcessor) ∧
      NewSCQueryProcessor (some proc) none = (none, some .ErrNilPubKeyConverter) ∧
      NewSCQueryProcessor (some proc) (some pubKeyConverter) =
        (some ⟨proc, pubKeyConverter⟩, none)) ∧
    (NewTransactionProcessor (none : Option (TxCoreProcessor σ V)) anyConverter =
        (none, some .ErrNilCoreProcessor) ∧
      NewTransactionProcessor (some txProc) none = (none, some .ErrNilPubKeyConverter) ∧
      NewTransactionProcessor (some txProc) (some pubKeyConverter) =
        (some ⟨txProc, pubKeyConverter⟩, none)) :=
  ⟨⟨rfl, rfl, rfl⟩, ⟨rfl, rfl, rfl⟩, ⟨rfl, rfl, rfl⟩⟩

/-! ## Serialization of snapshot items -/

theorem bulkRecord_ne_nil {Item : Type} (json : Item → List Nat) (item : Item) :
    bulkRecord json item ≠ [] := by
  simp [bulkRecord]

theorem bulkBuffer_length_eq_zero {Item : Type} (json : Item → List Nat) (group : List Item) :
    (bulkBuffer json group).length = 0 ↔ group = [] := by
  cases group with
  | nil => simp [bulkBuffer]
  | cons item rest =>
    have := bulkRecord_ne_nil json item
    simp [bulkBuffer, List.flatMap_cons, this]

theorem bulkBuffer_append_singleton {Item : Type} (json : Item → List Nat) (group : List Item)
    (item : Item) :
    bulkBuffer json (group ++ [item]) = (bulkBuffer json group ++ bulkMeta) ++ (json item ++ [10]) := by
  simp [bulkBuffer, List.flatMap_append, bulkRecord]

/-- The invariant of the loop of `serializeSnapshotItems`: when the buffer
being filled holds the items `cur` and the buffers put aside hold the groups
`done`, the loop returns buffers for `done` and for groups that split
`cur ++ rest` in order. -/
theorem serializeSnapshotItemsLoop_groups {Item : Type}
    (marshal : Item → Except GoError (List Nat)) (json : Item → List Nat) :
    ∀ (rest cur : List Item) (done : List (List Item)),
      (∀ item ∈ rest, marshal item = .ok (json item)) →
      (1 < cur.length → (bulkBuffer json cur).length ≤ bulkSizeThreshold) →
      ∃ groups : List (List Item),
        serializeSnapshotItemsLoop marshal rest (bulkBuffer json cur)
            (done.map (bulkBuffer json)) =
          .ok ((done ++ groups).map (bulkBuffer json)) ∧
        groups.flatten = cur ++ rest ∧
        (∀ g ∈ groups, g ≠ []) ∧
        (∀ g ∈ groups, 1 < g.length → (bulkBuffer json g).length ≤ bulkSizeThreshold) := by
  intro rest
  induction rest with
  | nil =>
    intro cur done _ hcur
    by_cases hc : cur = []
    · subst hc
      exact ⟨[], by simp [serializeSnapshotItemsLoop, bulkBuffer], by simp, by simp, by simp⟩
    · refine ⟨[cur], ?_, by simp, by simpa using hc, by simpa using hcur⟩
      have : (bulkBuffer json cur).length ≠ 0 := fun h =>
        hc ((bulkBuffer_length_eq_zero json cur).mp h)
      simp [serializeSnapshotItemsLoop, this]
  | cons item rest ih =>
    intro cur done hok hcur
    have hitem : marshal item = .ok (json item) := hok item (List.mem_cons_self _ _)
    have hrest : ∀ x ∈ rest, marshal x = .ok (json x) :=
      fun x hx => hok x (List.mem_cons_of_mem _ hx)
    by_cases hsplit : (bulkBuffer json cur).length + bulkMeta.length + (json item ++ [10]).length >
        bulkSizeThreshold ∧ (bulkBuffer json cur).length ≠ 0
    · have hc : cur ≠ [] := fun h => hsplit.2 ((bulkBuffer_length_eq_zero json cur).mpr h)
      obtain ⟨groups, h1, h2, h3, h4⟩ := ih [item] (done ++ [cur]) hrest (by simp)
      refine ⟨cur :: groups, ?_, ?_, ?_, ?_⟩
      · have e : bulkBuffer json [item] = ([] ++ bulkMeta) ++ (json item ++ [10]) := by
          simp [bulkBuffer, bulkRecord]
        rw [e] at h1
        simp only [serializeSnapshotItemsLoop, prepareSerializedSnapshots, hitem]
        rw [if_pos hsplit]
        simpa using h1
      · simp [h2]
      · intro g hg
        rcases List.mem_cons.mp hg with rfl | hg
        · exact hc
        · exact h3 g hg
      · intro g hg
        rcases List.mem_cons.mp hg with rfl | hg
        · exact hcur
        · exact h4 g hg
    · have hnew : 1 < (cur ++ [item]).length →
          (bulkBuffer json (cur ++ [item])).length ≤ bulkSizeThreshold := by
        intro hlen
        have hc : cur ≠ [] := by
          rintro rfl
          simp at hlen
        have hne : (bulkBuffer json cur).length ≠ 0 := fun h =>
          hc ((bulkBuffer_length_eq_zero json cur).mp h)
        have : ¬ (bulkBuffer json cur).length + bulkMeta.length + (json item ++ [10]).length >
            bulkSizeThreshold := fun h => hsplit ⟨h, hne⟩
        rw [bulkBuffer_append_singleton]
        simp only [List.length_append] at this ⊢
        omega
      obtain ⟨groups, h1, h2, h3, h4⟩ := ih (cur ++ [item]) done hrest hnew
      refine ⟨groups, ?_, by simp [h2], h3, h4⟩
      rw [bulkBuffer_append_singleton] at h1
      simp only [serializeSnapshotItemsLoop, prepareSerializedSnapshots, hitem]
      rw [if_neg hsplit]
      exact h1

/-- C20: for every list of snapshot items that all serialize without error,
`serializeSnapshotItems` returns buffers that hold the items group by group:
the groups split the input in order (no item dropped, duplicated, reordered or
split across two buffers), no group and no buffer is empty, the buffers put
end to end are the bulk meta line, the JSON and a newline of every item in
input order, an empty input gives no buffer, and every buffer that holds more
than one item is at most `bulkSizeThreshold` = 800000 bytes long. -/
theorem serializeSnapshotItems_buffers_hold_all_items_in_order {Item : Type}
    (marshal : Item → Except GoError (List Nat)) (json : Item → List Nat)
    (snapshotItems : List Item)
    (hok : ∀ item ∈ snapshotItems, marshal item = .ok (json item)) :
    ∃ groups : List (List Item),
      serializeSnapshotItems marshal snapshotItems = .ok (groups.map (bulkBuffer json)) ∧
      groups.flatten = snapshotItems ∧
      (∀ g ∈ groups, g ≠ []) ∧
      (∀ b ∈ groups.map (bulkBuffer json), b ≠ []) ∧
      (groups.map (bulkBuffer json)).flatten =
        snapshotItems.flatMap (fun item => (bulkMeta ++ json item) ++ [10]) ∧
      (snapshotItems = [] → groups.map (bulkBuffer json) = []) ∧
      (∀ g ∈ groups, 1 < g.length → (bulkBuffer json g).length ≤ 800000) := by
  obtain ⟨groups, h1, h2, h3, h4⟩ :=
    serializeSnapshotItemsLoop_groups marshal json snapshotItems [] [] hok (by simp)
  refine ⟨groups, ?_, by simpa using h2, h3, ?_, ?_, ?_, h4⟩
  · simpa [serializeSnapshotItems, bulkBuffer] using h1
  · intro b hb
    obtain ⟨g, hg, rfl⟩ := List.mem_map.mp hb
    intro h
    exact h3 g hg ((bulkBuffer_length_eq_zero json g).mp (by simp [h]))
  · have h2' : groups.flatten = snapshotItems := by simpa using h2
    rw [← h2']
    have key : ∀ gs : List (List Item), (gs.map (bulkBuffer json)).flatten =
        gs.flatten.flatMap (fun item => (bulkMeta ++ json item) ++ [10]) := by
      intro gs
      induction gs with
      | nil => rfl
      | cons g gs ih =>
        rw [List.map_cons, List.flatten_cons, List.flatten_cons, List.flatMap_append, ih]
        rfl
    exact key groups
  · rintro rfl
    have h2' : groups.flatten = [] := by simpa using h2
    cases groups with
    | nil => rfl
    | cons g gs =>
      exfalso
      have hg : g = [] := by
        have := congrArg List.length h2'
        simp only [List.flatten_cons, List.length_append, List.length_nil] at this
        exact List.length_eq_zero.mp (by omega)
      exact h3 g (List.mem_cons_self _ _) hg

/-- Witness of C20: three items whose JSON is 1, 2 and 3 bytes long go to one
buffer. -/
theorem serializeSnapshotItems_buffers_hold_all_items_in_order_witness :
    ∃ groups : List (List Nat),
      serializeSnapshotItems sevens [1, 2, 3] = .ok (groups.map (bulkBuffer (List.replicate · 7))) ∧
      groups.flatten = [1, 2, 3] ∧
      (∀ g ∈ groups, g ≠ []) ∧
      (∀ b ∈ groups.map (bulkBuffer (List.replicate · 7)), b ≠ []) ∧
      (groups.map (bulkBuffer (List.replicate · 7))).flatten =
        [1, 2, 3].flatMap (fun item => (bulkMeta ++ List.replicate item 7) ++ [10]) ∧
      (([1, 2, 3] : List Nat) = [] → groups.map (bulkBuffer (List.replicate · 7)) = []) ∧
      (∀ g ∈ groups, 1 < g.length →
        (bulkBuffer (List.replicate · 7) g).length ≤ 800000) :=
  serializeSnapshotItems_buffers_hold_all_items_in_order sevens (List.replicate · 7) [1, 2, 3]
    (fun _ _ => rfl)

/-! ## The status quorum resolver -/

theorem mem_definiteStatuses (responses : List (Nat × List String)) (status : String) :
    status ∈ definiteStatuses responses ↔
      (∃ r ∈ responses, status ∈ r.2) ∧ status ≠ UnknownStatusTx := by
  simp [definiteStatuses, List.mem_dedup, List.mem_filter, List.mem_flatMap]

theorem definiteStatuses_nodup (responses : List (Nat × List String)) :
    (definiteStatuses responses).Nodup :=
  List.nodup_dedup _

/-- What the resolver of the specification returns on the four maps of the
test `TestParseTxStatusResponses`.  On `responses2`, `responses3` and
`responses4` it returns what the test expects.  On `responses1`, where the
only definite status `"Ok"` is reported by two shards, it returns `"Ok"` with no
error, while the test expects `ErrCannotGetTransactionStatus`: the function
the test was written for does not follow §4.5 on that map. -/
theorem ParseTxStatusResponses_on_test_maps :
    ParseTxStatusResponses testResponses1 = ("Ok", none) ∧
      ParseTxStatusResponses testResponses2 = (UnknownStatusTx, none) ∧
      ParseTxStatusResponses testResponses3 = ("Ok", none) ∧
      ParseTxStatusResponses testResponses4 = ("", some .ErrCannotGetTransactionStatus) := by
  refine ⟨by decide, by decide, by decide, by decide⟩

/-- C13, as stated, fails on the only evidence there is of the function: in
the map `responses1` of the test `TestParseTxStatusResponses` every entry that
is not `"unknown"` carries the one value `"Ok"`, reported by shard 0 and by shard
2, so the claim says the result is `"Ok"` with no error; the test requires the
error `ErrCannotGetTransactionStatus` there, so no function that passes the
test returns `"Ok"` with no error on that map.  The resolver of §4.5 does, and
does not pass the test. -/
theorem test_rejects_one_status_reported_by_two_shards :
    (∃ r ∈ testResponses1, "Ok" ∈ r.2) ∧
      (∀ r ∈ testResponses1, ∀ status ∈ r.2, status ≠ UnknownStatusTx → status = "Ok") ∧
      "Ok" ≠ UnknownStatusTx ∧
      (¬ ∃ parse, TestParseTxStatusResponses parse ∧ parse testResponses1 = ("Ok", none)) ∧
      ¬ TestParseTxStatusResponses ParseTxStatusResponses := by
  refine ⟨⟨(0, ["Ok", "Ok", "Ok"]), by simp [testResponses1], by simp⟩, by decide, by decide,
    ?_, ?_⟩
  · rintro ⟨parse, ⟨h1, _⟩, h⟩
    rw [h] at h1
    cases h1
  · rintro ⟨h1, _⟩
    have h : ParseTxStatusResponses testResponses1 = ("Ok", none) := by decide
    rw [h] at h1
    cases h1

/-- C13, amended: for every statuses-by-shard map in which exactly one entry
is not `"unknown"`, with value `v`, `ParseTxStatusResponses` returns `v` with no
error, however many `"unknown"` entries come with it.  (A map in which a
definite status is reported by more than one entry is left out.) -/
theorem ParseTxStatusResponses_single_definite_entry (responses : List (Nat × List String))
    (v : String)
    (hone : ((responses.flatMap fun r => r.2).filter fun status => status ≠ UnknownStatusTx) =
      [v]) :
    ParseTxStatusResponses responses = (v, none) := by
  have hds : definiteStatuses responses = [v] := by
    unfold definiteStatuses
    rw [hone]
    rfl
  unfold ParseTxStatusResponses
  rw [hds]

/-- Witness of C13, amended: the map `responses3` of the test, `"Ok"` reported
once by shard 0 and `"unknown"` by the shards 1 and 2; the test expects `"Ok"`
with no error there too. -/
theorem ParseTxStatusResponses_single_definite_entry_witness :
    ParseTxStatusResponses testResponses3 = ("Ok", none) :=
  ParseTxStatusResponses_single_definite_entry testResponses3 "Ok" (by decide)

/-- C14: for every statuses-by-shard map that contains two different status
values, neither of them `"unknown"`, in the same shard or in different shards,
`ParseTxStatusResponses` fails with `ErrCannotGetTransactionStatus` and returns
no status. -/
theorem ParseTxStatusResponses_disagreement (responses : List (Nat × List String))
    (a b : String) (ha : a ≠ UnknownStatusTx) (hb : b ≠ UnknownStatusTx) (hab : a ≠ b)
    (hain : ∃ r ∈ responses, a ∈ r.2) (hbin : ∃ r ∈ responses, b ∈ r.2) :
    ParseTxStatusResponses responses = ("", some .ErrCannotGetTransactionStatus) := by
  have hma : a ∈ definiteStatuses responses := (mem_definiteStatuses responses a).mpr ⟨hain, ha⟩
  have hmb : b ∈ definiteStatuses responses := (mem_definiteStatuses responses b).mpr ⟨hbin, hb⟩
  unfold ParseTxStatusResponses
  rcases hds : definiteStatuses responses with _ | ⟨x, _ | ⟨y, rest⟩⟩
  · rw [hds] at hma; cases hma
  · rw [hds] at hma hmb
    simp only [List.mem_singleton] at hma hmb
    exact absurd (hma.trans hmb.symm) hab
  · rfl

/-- Witness of C14: the map `responses4` of the test, `"Ok"` and `"NotOk"` in
shard 0. -/
theorem ParseTxStatusResponses_disagreement_witness :
    ParseTxStatusResponses testResponses4 = ("", some .ErrCannotGetTransactionStatus) :=
  ParseTxStatusResponses_disagreement testResponses4 "Ok" "NotOk" (by decide) (by decide)
    (by decide) ⟨(0, ["Ok", "NotOk"]), by simp [testResponses4], by simp⟩
    ⟨(0, ["Ok", "NotOk"]), by simp [testResponses4], by simp⟩

/-- C15: `ParseTxStatusResponses` returns the status `"unknown"` with a nil
error if and only if every entry of the map is `"unknown"`: an input whose
entries are all `"unknown"` is not an error, and `"unknown"` is never the answer
when some entry is a definite status. -/
theorem ParseTxStatusResponses_unknown_iff (responses : List (Nat × List String)) :
    ParseTxStatusResponses responses = (UnknownStatusTx, none) ↔
      ∀ r ∈ responses, ∀ status ∈ r.2, status = UnknownStatusTx := by
  constructor
  · intro h r hr status hst
    by_contra hne
    have hmem : status ∈ definiteStatuses responses :=
      (mem_definiteStatuses responses status).mpr ⟨⟨r, hr, hst⟩, hne⟩
    unfold ParseTxStatusResponses at h
    rcases hds : definiteStatuses responses with _ | ⟨x, _ | ⟨y, rest⟩⟩
    · rw [hds] at hmem; cases hmem
    · rw [hds] at h hmem
      simp only [Prod.mk.injEq, and_true] at h
      have hx : x ∈ definiteStatuses responses := by rw [hds]; exact List.mem_cons_self _ _
      exact ((mem_definiteStatuses responses x).mp hx).2 h
    · rw [hds] at h
      simp at h
  · intro h
    have hnil : definiteStatuses responses = [] := by
      apply List.eq_nil_iff_forall_not_mem.mpr
      intro x hx
      obtain ⟨⟨r, hr, hxr⟩, hxu⟩ := (mem_definiteStatuses responses x).mp hx
      exact hxu (h r hr x hxr)
    unfold ParseTxStatusResponses
    rw [hnil]

/-! ## `SendTransaction` -/

theorem dispatchVerdict_next {R : Type} (errorField : R → String) (a : Answer R)
    (h : a.err ≠ none) : dispatchVerdict errorField a = .next := by
  rcases a with ⟨code, err, resp⟩
  cases err with
  | some e => rfl
  | none => exact absurd rfl h

theorem dispatchVerdict_ok {R : Type} (errorField : R → String) (a : Answer R)
    (h1 : a.err = none) (h2 : a.respCode = StatusOK) (h3 : errorField a.response = "") :
    dispatchVerdict errorField a = .stop (some a.response) none := by
  rcases a with ⟨code, err, resp⟩
  simp only at h1 h2 h3
  subst h1
  simp [dispatchVerdict, h2, h3]

/-- C17: for every observer list in which some observer answers status 200
with the transaction hash `h` (a successful transport call, with no error
field) and every observer before it returns a transport error,
`SendTransaction` returns the status 200, the hash `h` and a nil error, after
calling the observers up to that one. -/
theorem SendTransaction_returns_hash_of_first_ok {σ V : Type} (tp : TransactionProcessor σ V)
    (tx : Transaction) (s : σ) (senderBytes : List Nat) (shardID : Nat)
    (obs : List NodeData) (s0 : σ) (hr : tp.Routes tx s senderBytes shardID obs s0)
    (pre : List (Answer ResponseTransaction)) (a : Answer ResponseTransaction)
    (post : List (Answer ResponseTransaction)) (h : String)
    (hans : tp.sendTransactionAnswers tx obs s0 = pre ++ a :: post)
    (hpre : ∀ b ∈ pre, b.err ≠ none)
    (ha : a.err = none ∧ a.respCode = StatusOK ∧ a.response.Error = "" ∧
      a.response.TxHash = h) :
    (tp.SendTransaction tx s).value = (StatusOK, h) ∧
      (tp.SendTransaction tx s).err = none ∧
      (tp.SendTransaction tx s).trace =
        [.Decode tx.Sender, .ComputeShardId senderBytes, .GetObservers shardID] ++
          postCalls TransactionSendPath (obs.take (pre.length + 1)) := by
  obtain ⟨s1, s2, h1, h2, h3⟩ := hr
  obtain ⟨g1, g2, g3⟩ := failover_stop
    (fun a => tp.proc.CallPostRestEndPointTransaction a TransactionSendPath tx)
    (fun a => Event.CallPostRestEndPoint a TransactionSendPath)
    (dispatchVerdict ResponseTransaction.Error) none obs s0 pre a post _ _ hans
    (fun b hb => dispatchVerdict_next _ b (hpre b hb))
    (dispatchVerdict_ok _ a ha.1 ha.2.1 ha.2.2.1)
  cases obs with
  | nil => simp [TransactionProcessor.sendTransactionAnswers, answersFrom] at hans
  | cons o os =>
    rcases hf : failover
      (fun a => tp.proc.CallPostRestEndPointTransaction a TransactionSendPath tx)
      (fun a => Event.CallPostRestEndPoint a TransactionSendPath)
      (dispatchVerdict ResponseTransaction.Error) none (o :: os) s0 with ⟨v, e, tr, s3⟩
    rw [hf] at g1 g2 g3
    simp only at g1 g2 g3
    subst g1 g2 g3
    simp only [TransactionProcessor.SendTransaction, h1, h2, dispatch, h3, hf, Ret.after,
      ← ha.2.2.2, postCalls]
    simp

/-- Witness of C17: observers `address1` and `address2`, `address1` failing at
transport level and `address2` answering 200 with `DEADBEEF01234567890`. -/
theorem SendTransaction_returns_hash_of_first_ok_witness :
    (firstObserverFails.SendTransaction ⟨"DEADBEEF", ""⟩ 0).value =
        (StatusOK, "DEADBEEF01234567890") ∧
      (firstObserverFails.SendTransaction ⟨"DEADBEEF", ""⟩ 0).err = none ∧
      (firstObserverFails.SendTransaction ⟨"DEADBEEF", ""⟩ 0).trace =
        [.Decode "DEADBEEF", .ComputeShardId ("DEADBEEF".toList.map Char.toNat),
            .GetObservers 0] ++
          postCalls TransactionSendPath
            (List.take 2 [⟨"address1", 0⟩, ⟨"address2", 0⟩]) :=
  SendTransaction_returns_hash_of_first_ok firstObserverFails ⟨"DEADBEEF", ""⟩ 0
    ("DEADBEEF".toList.map Char.toNat) 0 [⟨"address1", 0⟩, ⟨"address2", 0⟩] 0
    ⟨0, 0, rfl, rfl, rfl⟩ [⟨500, some (.text "expected error"), ⟨"", ""⟩⟩]
    ⟨200, none, ⟨"DEADBEEF01234567890", ""⟩⟩ [] "DEADBEEF01234567890" rfl (by decide)
    ⟨rfl, rfl, rfl, rfl⟩


/-! ## `SendMultipleTransactions` -/

theorem mem_membersFrom (k : Nat) :
    ∀ (l : List Nat) (i j : Nat), j ∈ membersFrom k i l ↔ ∃ n, j = i + n ∧ l[n]? = some k := by
  intro l
  induction l with
  | nil => intro i j; simp [membersFrom]
  | cons shard rest ih =>
    intro i j
    by_cases hk : shard = k
    · simp only [membersFrom, hk, if_true, List.mem_cons, ih]
      constructor
      · rintro (rfl | ⟨n, rfl, hn⟩)
        · exact ⟨0, rfl, by simp⟩
        · exact ⟨n + 1, by omega, by simpa using hn⟩
      · rintro ⟨n, rfl, hn⟩
        cases n with
        | zero => left; rfl
        | succ n => right; exact ⟨n, by omega, by simpa using hn⟩
    · simp only [membersFrom, hk, if_false, ih]
      constructor
      · rintro ⟨n, rfl, hn⟩
        exact ⟨n + 1, by omega, by simpa using hn⟩
      · rintro ⟨n, rfl, hn⟩
        cases n with
        | zero => simp at hn; exact absurd hn hk
        | succ n => exact ⟨n, by omega, by simpa using hn⟩

theorem mem_membersOf (shards : List Nat) (k j : Nat) :
    j ∈ membersOf shards k ↔ shards[j]? = some k := by
  rw [membersOf, mem_membersFrom]
  constructor
  · rintro ⟨n, rfl, hn⟩
    simpa using hn
  · intro h
    exact ⟨j, by omega, h⟩

theorem membersFrom_length (k : Nat) :
    ∀ (l : List Nat) (i : Nat), (membersFrom k i l).length = l.count k := by
  intro l
  induction l with
  | nil => intro i; rfl
  | cons shard rest ih =>
    intro i
    by_cases hk : shard = k
    · simp [membersFrom, hk, ih]
    · simp [membersFrom, hk, ih, List.count_cons_of_ne (Ne.symm hk)]

theorem membersOf_length (shards : List Nat) (k : Nat) :
    (membersOf shards k).length = shards.count k :=
  membersFrom_length k shards 0

theorem routeTransactions_length {σ V : Type} (tp : TransactionProcessor σ V) :
    ∀ (txs : List Transaction) (s : σ) (shards : List Nat) (tr : List Event) (s1 : σ),
      tp.routeTransactions txs s = ⟨shards, none, tr, s1⟩ → shards.length = txs.length := by
  intro txs
  induction txs with
  | nil =>
    intro s shards tr s1 h
    simp only [TransactionProcessor.routeTransactions, Ret.mk.injEq] at h
    rw [← h.1]
    rfl
  | cons tx rest ih =>
    intro s shards tr s1 h
    simp only [TransactionProcessor.routeTransactions] at h
    split at h
    · simp at h
    · split at h
      · simp at h
      · split at h
        · simp at h
        · rename_i hrest
          simp only [Ret.mk.injEq] at h
          rw [← h.1, List.length_cons, List.length_cons, ih _ _ _ _ hrest]

/-- What processing a list of shard groups that are all accepted in full adds
to the progress. -/
theorem sendGroups_accepted {σ V : Type} (tp : TransactionProcessor σ V)
    (txs : List Transaction) (shards : List Nat) (H : Nat → Nat → String) :
    ∀ (ks : List Nat) (acc : BatchProgress σ),
      (∀ k ∈ ks, tp.AcceptedInFull txs shards H k) →
      (tp.sendGroups txs shards ks acc).NumOfTxs =
        acc.NumOfTxs + (ks.map fun k => (membersOf shards k).length).sum ∧
      (tp.sendGroups txs shards ks acc).accepted = acc.accepted + ks.length ∧
      ∀ i, (tp.sendGroups txs shards ks acc).TxsHashes i =
        match shards[i]? with
        | some k =>
          if k ∈ ks then some (H k ((membersOf shards k).indexOf i)) else acc.TxsHashes i
        | none => acc.TxsHashes i := by
  intro ks
  induction ks with
  | nil =>
    intro acc _
    refine ⟨by simp [TransactionProcessor.sendGroups], by simp [TransactionProcessor.sendGroups],
      ?_⟩
    intro i
    cases shards[i]? <;> simp [TransactionProcessor.sendGroups]
  | cons k rest ih =>
    intro acc hacc
    obtain ⟨response, tr, s1, hsend, hnum, hhash⟩ := hacc k (List.mem_cons_self _ _) acc.state
    have hrest : ∀ k ∈ rest, tp.AcceptedInFull txs shards H k :=
      fun x hx => hacc x (List.mem_cons_of_mem _ hx)
    obtain ⟨g1, g2, g3⟩ := ih
      { NumOfTxs := acc.NumOfTxs + response.NumOfTxs
        TxsHashes := mergeGroup (membersOf shards k) response acc.TxsHashes
        accepted := acc.accepted + 1
        trace := acc.trace ++ tr
        state := s1 } hrest
    simp only [TransactionProcessor.sendGroups, hsend]
    dsimp only at g1 g2
    refine ⟨?_, ?_, ?_⟩
    · rw [g1, hnum, List.map_cons, List.sum_cons]
      omega
    · rw [g2, List.length_cons]
      omega
    · intro i
      rw [g3 i]
      cases hi : shards[i]? with
      | none =>
        have : i ∉ membersOf shards k := by
          rw [mem_membersOf, hi]; simp
        simp [mergeGroup, this]
      | some k2 =>
        by_cases hk2 : k2 ∈ rest
        · simp [hk2]
        · by_cases hkk : k2 = k
          · subst hkk
            have hm : i ∈ membersOf shards k2 := (mem_membersOf shards k2 i).mpr hi
            have hlt : (membersOf shards k2).indexOf i < (membersOf shards k2).length :=
              List.indexOf_lt_length.mpr hm
            simp [hk2, mergeGroup, hm, hhash _ hlt]
          · have hm : i ∉ membersOf shards k := by
              rw [mem_membersOf, hi]
              simpa using hkk
            simp [hk2, hkk, mergeGroup, hm]

/-- C16: for every batch in which every shard group is accepted in full,
`SendMultipleTransactions` returns, with a nil error, `NumOfTxs` the length of
the batch and a hash map whose keys are exactly the indices of the batch; the
entry at original index `i` is the hash the observer of the shard group of `i`
returned for the position of `i` inside the group.  This holds in whatever
order the shard groups are processed, so two orders give the same result. -/
theorem SendMultipleTransactions_merges_by_original_index {σ V : Type}
    (tp : TransactionProcessor σ V) (txs : List Transaction) (schedule : List Nat) (s : σ)
    (shards : List Nat) (tr : List Event) (s1 : σ) (H : Nat → Nat → String)
    (hroute : tp.routeTransactions txs s = ⟨shards, none, tr, s1⟩)
    (hschedule : schedule.Perm shards.dedup)
    (hacc : ∀ k ∈ shards, tp.AcceptedInFull txs shards H k) :
    (tp.SendMultipleTransactions txs schedule s).err = none ∧
    (tp.SendMultipleTransactions txs schedule s).value.NumOfTxs = txs.length ∧
    (∀ i, ((tp.SendMultipleTransactions txs schedule s).value.TxsHashes i).isSome ↔
      i < txs.length) ∧
    (∀ i k, shards[i]? = some k →
      (tp.SendMultipleTransactions txs schedule s).value.TxsHashes i =
        some (H k ((membersOf shards k).indexOf i))) ∧
    (∀ other : List Nat, other.Perm shards.dedup →
      (tp.SendMultipleTransactions txs other s).err =
        (tp.SendMultipleTransactions txs schedule s).err ∧
      (tp.SendMultipleTransactions txs other s).value.NumOfTxs =
        (tp.SendMultipleTransactions txs schedule s).value.NumOfTxs ∧
      ∀ i, (tp.SendMultipleTransactions txs other s).value.TxsHashes i =
        (tp.SendMultipleTransactions txs schedule s).value.TxsHashes i) := by
  have hlen : shards.length = txs.length := routeTransactions_length tp txs s shards tr s1 hroute
  -- what the call returns for any order that lists every shard group once
  have key : ∀ order : List Nat, order.Perm shards.dedup →
      (tp.SendMultipleTransactions txs order s).err = none ∧
      (tp.SendMultipleTransactions txs order s).value.NumOfTxs = txs.length ∧
      ∀ i, (tp.SendMultipleTransactions txs order s).value.TxsHashes i =
        match shards[i]? with
        | some k => some (H k ((membersOf shards k).indexOf i))
        | none => none := by
    intro order horder
    have hmem : ∀ k, k ∈ order ↔ k ∈ shards := fun k =>
      (horder.mem_iff).trans List.mem_dedup
    obtain ⟨g1, g2, g3⟩ := sendGroups_accepted tp txs shards H order
      ⟨0, fun _ => none, 0, tr, s1⟩ (fun k hk => hacc k ((hmem k).mp hk))
    have hsum : (order.map fun k => (membersOf shards k).length).sum = txs.length := by
      rw [(horder.map _).sum_eq, ← hlen]
      simp only [membersOf_length]
      exact List.sum_map_count_dedup_eq_length shards
    rcases hp : tp.sendGroups txs shards order ⟨0, fun _ => none, 0, tr, s1⟩ with
      ⟨numOfTxs, txsHashes, accepted, tr2, s2⟩
    rw [hp] at g1 g2 g3
    simp only [Nat.zero_add] at g1 g2 g3
    have hno : ¬(order ≠ [] ∧ accepted = 0) := by
      rintro ⟨hne, h0⟩
      rw [g2] at h0
      exact hne (List.length_eq_zero.mp h0)
    simp only [TransactionProcessor.SendMultipleTransactions, hroute, hp, if_neg hno]
    refine ⟨trivial, by rw [g1, hsum], ?_⟩
    intro i
    rw [g3 i]
    cases hi : shards[i]? with
    | none => rfl
    | some k =>
      have : k ∈ order := (hmem k).mpr (List.getElem?_mem hi)
      simp [this]
  obtain ⟨k1, k2, k3⟩ := key schedule hschedule
  refine ⟨k1, k2, ?_, ?_, ?_⟩
  · intro i
    rw [k3 i]
    by_cases hi : i < txs.length
    · have hi2 : i < shards.length := by omega
      rw [List.getElem?_eq_getElem hi2]
      simp [hi]
    · have hi2 : shards.length ≤ i := by omega
      rw [List.getElem?_eq_none hi2]
      simp [hi]
  · intro i k hi
    rw [k3 i, hi]
  · intro other hother
    obtain ⟨o1, o2, o3⟩ := key other hother
    refine ⟨by rw [o1, k1], by rw [o2, k2], ?_⟩
    intro i
    rw [o3 i, k3 i]

/-- The shard groups of the batch of the test are accepted in full. -/
theorem byShardProcessor_accepted :
    ∀ k ∈ [0, 0, 1, 1], byShardProcessor.AcceptedInFull byShardBatch [0, 0, 1, 1] byShardHashes k := by
  intro k hk s
  simp only [List.mem_cons, List.mem_singleton, List.not_mem_nil, or_false, or_self_left] at hk
  rcases hk with rfl | rfl | rfl | rfl
  all_goals
    refine ⟨_, _, _, rfl, rfl, ?_⟩
    intro p hp
    have hp2 : p < 2 := hp
    interval_cases p <;> rfl

/-- Witness of C16: the batch of the test
`TestTransactionProcessor_SendMultipleTransactionsShouldWorkAndSendTxsByShard`,
shard 1 processed before shard 0. -/
theorem SendMultipleTransactions_merges_by_original_index_witness :
    (byShardProcessor.SendMultipleTransactions byShardBatch [1, 0] 0).err = none ∧
    (byShardProcessor.SendMultipleTransactions byShardBatch [1, 0] 0).value.NumOfTxs = 4 ∧
    (byShardProcessor.SendMultipleTransactions byShardBatch [1, 0] 0).value.TxsHashes 0 =
      some "hash0" ∧
    (byShardProcessor.SendMultipleTransactions byShardBatch [1, 0] 0).value.TxsHashes 1 =
      some "hash1" ∧
    (byShardProcessor.SendMultipleTransactions byShardBatch [1, 0] 0).value.TxsHashes 2 =
      some "hash2" ∧
    (byShardProcessor.SendMultipleTransactions byShardBatch [1, 0] 0).value.TxsHashes 3 =
      some "hash3" ∧
    (∀ i, ((byShardProcessor.SendMultipleTransactions byShardBatch [1, 0] 0).value.TxsHashes
      i).isSome ↔ i < byShardBatch.length) :=
  have h := SendMultipleTransactions_merges_by_original_index byShardProcessor byShardBatch
    [1, 0] 0 [0, 0, 1, 1] _ 0 byShardHashes rfl (by decide) byShardProcessor_accepted
  ⟨h.1, h.2.1, h.2.2.2.1 0 0 rfl, h.2.2.2.1 1 0 rfl, h.2.2.2.1 2 1 rfl, h.2.2.2.1 3 1 rfl,
    h.2.2.1⟩


/-! ## Loading the private keys -/

/-- One turn of the loop at an index where the loader does not fail with an
error about the index: the key handed back is appended, whatever error comes
with it, and the loop goes on. -/
theorem loadPrivKeysLoop_step (pkl : PrivateKeysLoader) (fuel index : Nat)
    (privateKeysSlice : List (Option (List Nat))) (h : pkl.isIndexError index = false) :
    pkl.loadPrivKeysLoop (fuel + 1) index privateKeysSlice =
      pkl.loadPrivKeysLoop fuel (index + 1)
        (privateKeysSlice ++ [(pkl.LoadSkFromPemFile pkl.pemFileLocation index).1]) := by
  unfold PrivateKeysLoader.isIndexError at h
  rcases hl : pkl.LoadSkFromPemFile pkl.pemFileLocation index with ⟨sk, err⟩
  rw [hl] at h
  cases err with
  | none => simp [PrivateKeysLoader.loadPrivKeysLoop, hl]
  | some e =>
    simp only at h
    simp [PrivateKeysLoader.loadPrivKeysLoop, hl, h]

/-- The loop never returns when, from some index on, the loader never fails
with an error about the index. -/
theorem loadPrivKeysLoop_never_returns (pkl : PrivateKeysLoader) :
    ∀ (fuel index : Nat) (privateKeysSlice : List (Option (List Nat))),
      (∀ i, index ≤ i → pkl.isIndexError i = false) →
      pkl.loadPrivKeysLoop fuel index privateKeysSlice = none := by
  intro fuel
  induction fuel with
  | zero => intro index acc _; rfl
  | succ fuel ih =>
    intro index acc h
    rw [loadPrivKeysLoop_step pkl fuel index acc (h index (Nat.le_refl _))]
    exact ih (index + 1) _ (fun i hi => h i (by omega))

/-- The loop returns at the first index where the loader fails with an error
about the index, once it is given more turns than there are indices before
it: with the keys handed back at the indices before, or with the error of the
loader when there is none. -/
theorem loadPrivKeysLoop_returns_at_index_error (pkl : PrivateKeysLoader) :
    ∀ (k fuel index : Nat) (privateKeysSlice : List (Option (List Nat))) (err : String),
      (∀ i, i < k → pkl.isIndexError (index + i) = false) →
      (pkl.LoadSkFromPemFile pkl.pemFileLocation (index + k)).2 = some err →
      stringsContains err "invalid private key index" = true →
      k < fuel →
      pkl.loadPrivKeysLoop fuel index privateKeysSlice =
        some (if (privateKeysSlice ++ (List.range k).map fun i =>
              (pkl.LoadSkFromPemFile pkl.pemFileLocation (index + i)).1).length = 0
          then (none, some (.text err))
          else (some (privateKeysSlice ++ (List.range k).map fun i =>
              (pkl.LoadSkFromPemFile pkl.pemFileLocation (index + i)).1), none)) := by
  intro k
  induction k with
  | zero =>
    intro fuel index acc err _ herr hc hfuel
    obtain ⟨f, rfl⟩ : ∃ f, fuel = f + 1 := ⟨fuel - 1, by omega⟩
    rcases hl : pkl.LoadSkFromPemFile pkl.pemFileLocation index with ⟨sk, e⟩
    rw [Nat.add_zero, hl] at herr
    simp only at herr
    subst herr
    simp only [PrivateKeysLoader.loadPrivKeysLoop, hl, hc, if_true, List.range_zero,
      List.map_nil, List.append_nil]
    split <;> rfl
  | succ k ih =>
    intro fuel index acc err hbefore herr hc hfuel
    obtain ⟨f, rfl⟩ : ∃ f, fuel = f + 1 := ⟨fuel - 1, by omega⟩
    rw [loadPrivKeysLoop_step pkl f index acc (by simpa using hbefore 0 (Nat.succ_pos _))]
    have h2 : ∀ i, i < k → pkl.isIndexError (index + 1 + i) = false := by
      intro i hi
      have := hbefore (i + 1) (by omega)
      rwa [show index + (i + 1) = index + 1 + i by omega] at this
    have h3 : (pkl.LoadSkFromPemFile pkl.pemFileLocation (index + 1 + k)).2 = some err := by
      rwa [show index + (k + 1) = index + 1 + k by omega] at herr
    rw [ih f (index + 1) _ err h2 h3 hc (by omega)]
    have e : (List.range (k + 1)).map (fun i =>
          (pkl.LoadSkFromPemFile pkl.pemFileLocation (index + i)).1) =
        (pkl.LoadSkFromPemFile pkl.pemFileLocation index).1 ::
          (List.range k).map (fun i =>
            (pkl.LoadSkFromPemFile pkl.pemFileLocation (index + 1 + i)).1) := by
      rw [List.range_succ_eq_map, List.map_cons, List.map_map]
      congr 1
      apply List.map_congr_left
      intro i _
      simp only [Function.comp, Nat.add_zero]
      rw [show index + (i + 1) = index + 1 + i by omega]
    rw [e]
    simp only [List.append_assoc, List.singleton_append]

/-- C21 fails on the code: the loop of `loadPrivKeysBytesFromPemFile` returns
only on a loader error whose text contains `invalid private key index`.  On a
pem file that cannot be opened the loader fails at every index with another
error, and the method returns within no number of turns.  On a file whose key
0 loads, whose key 1 is malformed and which has no key 2, the method returns
the key 0 followed by the nil key of the failing index 1, and not the key 0
alone. -/
theorem loadPrivKeysBytesFromPemFile_goes_on_after_other_failures :
    (∀ index, (missingPemFile.LoadSkFromPemFile missingPemFile.pemFileLocation index) =
        (none, some "open keys.pem: no such file or directory")) ∧
      (∀ fuel, missingPemFile.loadPrivKeysBytesFromPemFile fuel = none) ∧
      malformedSecondKey.LoadSkFromPemFile malformedSecondKey.pemFileLocation 1 =
        (none, some "illegal base64 data at input byte 4") ∧
      malformedSecondKey.loadPrivKeysBytesFromPemFile 3 =
        some (some [some [1, 2, 3], none], none) ∧
      malformedSecondKey.loadPrivKeysBytesFromPemFile 3 ≠ some (some [some [1, 2, 3]], none) := by
  refine ⟨fun _ => rfl, ?_, rfl, by decide, by decide⟩
  intro fuel
  exact loadPrivKeysLoop_never_returns missingPemFile fuel 0 [] (fun i _ => by
    show stringsContains "open keys.pem: no such file or directory"
      "invalid private key index" = false
    decide)

/-- When the first failure of the loader is about the index, the method does
what C21 says: here the file has the keys 0 and 1, the loader fails at index 2
with `invalid private key index 2`, and with three turns or more the method
returns the two keys in index order. -/
theorem loadPrivKeysBytesFromPemFile_two_keys (fuel : Nat) (h : 2 < fuel) :
    twoKeys.loadPrivKeysBytesFromPemFile fuel =
      some (some [some [1, 2, 3], some [4, 5, 6]], none) :=
  loadPrivKeysLoop_returns_at_index_error twoKeys 2 fuel 0 [] "invalid private key index 2"
    (fun i hi => by interval_cases i <;> decide) (by decide) (by decide) h


end ElrondProxy

